import Mathlib

/-!
# roer: conversion of a pipeline configuration into a pipeline template

A shallow embedding of `template_converter.go` and the properties of its
functions `createID`, `convertTriggers`, `convertNotifications`,
`convertStages`, `buildDependsOn`, `getStageConfig` and
`convertPipelineToTemplate`, followed by the HTTP client of `spinnaker/http.go`
(`client.Do`, `client.get`, `client.getJSON`, `DefaultHTTPClientFactory`) and by
the conversion over an explicit store of maps.

Conventions of the embedding

* A Go `interface{}` holding a decoded JSON document is a `Value`; the nil
  interface is `Value.null`.
* A Go `map[string]interface{}` is a `GoMap`: `none` is the nil map, `some fs`
  a map whose entries are the association list `fs`.  Reading a key returns the
  first entry with that key; every operation that writes removes the older
  entries of the key it writes.
* A Go run-time panic is the error of `Except Panic`.
* Records are embedded by value: the entries of a trigger, notification or
  stage list are separate maps, as the JSON decoder builds them.
* A Go string is a `String`: the text is valid UTF-8, as the JSON decoder
  leaves it.
-/

namespace Roer

/-! ## Dynamically typed values -/

/-- A value of type `interface{}` as `encoding/json` decodes it. A JSON number
is a `float64`, kept as its IEEE-754 bit pattern; the conversion never looks
inside one. -/
inductive Value where
  | null : Value
  | bool (b : Bool) : Value
  | num (bits : Nat) : Value
  | str (s : String) : Value
  | arr (items : List Value) : Value
  | obj (fields : List (String × Value)) : Value

mutual
/-- Decidable equality of values. -/
def Value.decEq : (a b : Value) → Decidable (a = b)
  | .null, .null => isTrue rfl
  | .bool a, .bool b =>
    if h : a = b then isTrue (by rw [h]) else isFalse (by intro e; cases e; exact h rfl)
  | .num a, .num b =>
    if h : a = b then isTrue (by rw [h]) else isFalse (by intro e; cases e; exact h rfl)
  | .str a, .str b =>
    if h : a = b then isTrue (by rw [h]) else isFalse (by intro e; cases e; exact h rfl)
  | .arr a, .arr b =>
    match Value.decEqItems a b with
    | isTrue h => isTrue (by rw [h])
    | isFalse h => isFalse (by intro e; cases e; exact h rfl)
  | .obj a, .obj b =>
    match Value.decEqFields a b with
    | isTrue h => isTrue (by rw [h])
    | isFalse h => isFalse (by intro e; cases e; exact h rfl)
  | .null, .bool _ | .null, .num _ | .null, .str _ | .null, .arr _ | .null, .obj _
  | .bool _, .null | .bool _, .num _ | .bool _, .str _ | .bool _, .arr _ | .bool _, .obj _
  | .num _, .null | .num _, .bool _ | .num _, .str _ | .num _, .arr _ | .num _, .obj _
  | .str _, .null | .str _, .bool _ | .str _, .num _ | .str _, .arr _ | .str _, .obj _
  | .arr _, .null | .arr _, .bool _ | .arr _, .num _ | .arr _, .str _ | .arr _, .obj _
  | .obj _, .null | .obj _, .bool _ | .obj _, .num _ | .obj _, .str _ | .obj _, .arr _ =>
    isFalse (by intro e; cases e)
/-- Decidable equality of lists of values. -/
def Value.decEqItems : (a b : List Value) → Decidable (a = b)
  | [], [] => isTrue rfl
  | [], _ :: _ => isFalse (by intro e; cases e)
  | _ :: _, [] => isFalse (by intro e; cases e)
  | x :: xs, y :: ys =>
    match Value.decEq x y, Value.decEqItems xs ys with
    | isTrue h, isTrue h' => isTrue (by rw [h, h'])
    | isFalse h, _ => isFalse (by intro e; cases e; exact h rfl)
    | _, isFalse h => isFalse (by intro e; cases e; exact h rfl)
/-- Decidable equality of lists of map entries. -/
def Value.decEqFields : (a b : List (String × Value)) → Decidable (a = b)
  | [], [] => isTrue rfl
  | [], _ :: _ => isFalse (by intro e; cases e)
  | _ :: _, [] => isFalse (by intro e; cases e)
  | (k, x) :: xs, (k', y) :: ys =>
    if hk : k = k' then
      match Value.decEq x y, Value.decEqFields xs ys with
      | isTrue h, isTrue h' => isTrue (by rw [hk, h, h'])
      | isFalse h, _ => isFalse (by intro e; cases e; exact h rfl)
      | _, isFalse h => isFalse (by intro e; cases e; exact h rfl)
    else isFalse (by intro e; cases e; exact hk rfl)
end

instance : DecidableEq Value := Value.decEq

/-- The name Go prints for the dynamic type of a value. -/
def Value.typeName : Value → String
  | .null => "nil"
  | .bool _ => "bool"
  | .num _ => "float64"
  | .str _ => "string"
  | .arr _ => "[]interface \x7b\x7d"
  | .obj _ => "map[string]interface \x7b\x7d"

/-- Whether the dynamic type of a value is `string`. -/
def Value.isString : Value → Bool
  | .str _ => true
  | _ => false

/-- A run-time panic of the Go program. -/
inductive Panic where
  /-- A failed type assertion, with the names of the dynamic type found and of
  the type asserted. -/
  | typeAssertion (concrete asserted : String) : Panic
  /-- An assignment to an entry of the nil map. -/
  | nilMapAssign : Panic
deriving DecidableEq

deriving instance DecidableEq for Except

/-- The type assertion `v.(string)`. -/
def assertString (v : Value) : Except Panic String :=
  match v with
  | .str s => .ok s
  | w => .error (.typeAssertion w.typeName "string")

/-- The type assertion `v.([]interface{})`. -/
def assertSlice (v : Value) : Except Panic (List Value) :=
  match v with
  | .arr items => .ok items
  | w => .error (.typeAssertion w.typeName "[]interface \x7b\x7d")

/-! ## Maps -/

/-- The entries of a non-nil map. -/
abbrev Fields := List (String × Value)

/-- The comma-ok read of key `k`: the first entry with that key. -/
def Fields.get? : Fields → String → Option Value
  | [], _ => none
  | (k', v) :: rest, k => if k' = k then some v else Fields.get? rest k

/-- The builtin `delete(m, k)` on the entries. -/
def Fields.delete (k : String) (fs : Fields) : Fields :=
  fs.filter (fun e => decide (e.1 ≠ k))

/-- The assignment `m[k] = v` on the entries. -/
def Fields.set (k : String) (v : Value) (fs : Fields) : Fields :=
  (k, v) :: Fields.delete k fs

/-- A Go `map[string]interface{}`; `none` is the nil map. -/
abbrev GoMap := Option Fields

/-- The comma-ok read `v, ok := m[k]`; a nil map has no key. -/
def GoMap.lookup (m : GoMap) (k : String) : Option Value :=
  match m with
  | none => none
  | some fs => fs.get? k

/-- The read `m[k]`: the nil interface when the key is absent. -/
def GoMap.index (m : GoMap) (k : String) : Value :=
  (m.lookup k).getD .null

/-- The assignment `m[k] = v`, which panics on the nil map. -/
def GoMap.assign (m : GoMap) (k : String) (v : Value) : Except Panic GoMap :=
  match m with
  | none => .error .nilMapAssign
  | some fs => .ok (some (fs.set k v))

/-- The builtin `delete(m, k)`, a no-op on the nil map. -/
def GoMap.delete (m : GoMap) (k : String) : GoMap :=
  match m with
  | none => none
  | some fs => some (fs.delete k)

/-- The entries a `range` over the map visits; none for the nil map. -/
def GoMap.entries (m : GoMap) : Fields :=
  match m with
  | none => []
  | some fs => fs

/-! ## Formatting -/

/-- The verb `%d` of `fmt` on a slice index. -/
def fmtD (i : Nat) : String := Nat.repr i

/-- The verb `%s` of `fmt` on an `interface{}` operand: a string is printed as
it is and the nil interface as `%!s(<nil>)`. What `fmt` prints for an operand of
another dynamic type is the parameter `badVerb`. -/
def fmtS (badVerb : Value → String) (v : Value) : String :=
  match v with
  | .str s => s
  | .null => "%!s(<nil>)"
  | w => badVerb w

/-- The regexp class `\W` of Go (RE2): every character outside `[0-9A-Za-z_]`. -/
def isNonWord (c : Char) : Bool :=
  !(('0' ≤ c && c ≤ '9') || ('A' ≤ c && c ≤ 'Z') || c = '_' || ('a' ≤ c && c ≤ 'z'))

/-- The loop of `ReplaceAllString` for a regexp that is one character class:
every character of the class is a match and is replaced by `repl`, the text
between matches is copied. -/
def replaceAllClass.loop (cls : Char → Bool) (repl : List Char) :
    List Char → List Char → List Char
  | [], out => out
  | c :: rest, out =>
    if cls c then replaceAllClass.loop cls repl rest (out ++ repl)
    else replaceAllClass.loop cls repl rest (out ++ [c])

/-- The call `r.ReplaceAllString(src, repl)` for a regexp `r` that is one
character class. -/
def replaceAllClass (cls : Char → Bool) (src repl : String) : String :=
  ⟨replaceAllClass.loop cls repl.data src.data []⟩

/-! ## Source and target documents -/

/-- Modelled from the spec: the type declaration `spinnaker.PipelineConfig`,
with the fields the conversion reads. -/
structure PipelineConfig where
  Application : String
  Name : String
  Description : String
  LastModifiedBy : String
  Parallel : Bool
  LimitConcurrent : Bool
  Triggers : List GoMap
  Parameters : List GoMap
  Notifications : List GoMap
  ExpectedArtifacts : List GoMap
  Stages : List GoMap
deriving DecidableEq

/-- Modelled from the spec: the type declaration `PipelineTemplateMetadata`. -/
structure PipelineTemplateMetadata where
  Name : String
  Description : String
  Owner : String
  Scopes : List String
deriving DecidableEq

/-- Modelled from the spec: the type declaration `PipelineTemplateConfig`. -/
structure PipelineTemplateConfig where
  ConcurrentExecutions : List (String × Bool)
  Triggers : List GoMap
  Parameters : List GoMap
  Notifications : List GoMap
  ExpectedArtifacts : List GoMap
deriving DecidableEq

/-- Modelled from the spec: the type declaration `PipelineTemplateStage`. -/
structure PipelineTemplateStage where
  ID : String
  Type_ : String
  DependsOn : List String
  Name : String
  Config : GoMap
deriving DecidableEq

/-- Modelled from the spec: the type declaration `PipelineTemplate`. -/
structure PipelineTemplate where
  Schema : String
  ID : String
  Metadata : PipelineTemplateMetadata
  Protect : Bool
  Configuration : PipelineTemplateConfig
  Variables : List Value
  Stages : List PipelineTemplateStage
deriving DecidableEq

/-! ## The conversion -/

/-- The function `createID`. -/
def createID (pipelineConfig : PipelineConfig) : String :=
  pipelineConfig.Application ++ "-" ++ replaceAllClass isNonWord pipelineConfig.Name ""

/-- The loop of `convertTriggers`: `i` is the index of the next entry and `l`
the result so far. -/
def convertTriggers.loop : Nat → List GoMap → List GoMap → Except Panic (List GoMap)
  | _, [], l => .ok l
  | i, t :: rest, l => do
    let t' ← t.assign "name" (.str ("unnamed" ++ fmtD i))
    convertTriggers.loop (i + 1) rest (l ++ [t'])

/-- The function `convertTriggers`. -/
def convertTriggers (triggers : List GoMap) : Except Panic (List GoMap) :=
  convertTriggers.loop 0 triggers []

/-- The loop of `convertNotifications`. -/
def convertNotifications.loop (badVerb : Value → String) :
    Nat → List GoMap → List GoMap → Except Panic (List GoMap)
  | _, [], l => .ok l
  | i, n :: rest, l => do
    let n' ← n.assign "name" (.str (fmtS badVerb (n.index "type") ++ fmtD i))
    convertNotifications.loop badVerb (i + 1) rest (l ++ [n'])

/-- The function `convertNotifications`. -/
def convertNotifications (badVerb : Value → String) (notifications : List GoMap) :
    Except Panic (List GoMap) :=
  convertNotifications.loop badVerb 0 notifications []

/-- The function `getStageConfig`: the entries of `s` are copied into a fresh
map, then the four structural keys are deleted. Go leaves the order in which
`range` visits a map unspecified; the entries are visited last to first. -/
def getStageConfig (s : GoMap) : GoMap :=
  let config : GoMap := some (s.entries.foldr (fun e c => Fields.set e.1 e.2 c) [])
  let config := config.delete "type"
  let config := config.delete "name"
  let config := config.delete "refId"
  let config := config.delete "requisiteStageRefIds"
  config

/-- The loop of the closure `convertToStringSlice` over the asserted slice. -/
def convertToStringSlice.loop : List Value → List String → Except Panic (List String)
  | [], s => .ok s
  | v :: rest, s => do
    let x ← assertString v
    convertToStringSlice.loop rest (s ++ [x])

/-- The closure `convertToStringSlice` of `convertStages`. -/
def convertToStringSlice (input : Value) : Except Panic (List String) :=
  match input with
  | .null => .ok []
  | w => do
    let items ← assertSlice w
    convertToStringSlice.loop items []

/-- The inner loop of `buildDependsOn`, over the stages, for one reference. -/
def buildDependsOn.inner (refID : String) :
    List GoMap → List String → Except Panic (List String)
  | [], l => .ok l
  | s :: rest, l =>
    match s.lookup "refId" with
    | some targetRefID => do
      let target ← assertString targetRefID
      if target = refID then do
        let ty ← assertString (s.index "type")
        buildDependsOn.inner refID rest (l ++ [ty ++ target])
      else
        buildDependsOn.inner refID rest l
    | none => buildDependsOn.inner refID rest l

/-- The outer loop of `buildDependsOn`, over the references. -/
def buildDependsOn.outer (stages : List GoMap) :
    List String → List String → Except Panic (List String)
  | [], l => .ok l
  | refID :: rest, l => do
    let l' ← buildDependsOn.inner refID stages l
    buildDependsOn.outer stages rest l'

/-- The function `buildDependsOn`. -/
def buildDependsOn (stages : List GoMap) (reqStageRefIDs : List String) :
    Except Panic (List String) :=
  buildDependsOn.outer stages reqStageRefIDs []

/-- The body of the loop of `convertStages`: the template stage of `s`, its
fields evaluated in the order of the composite literal. -/
def convertStages.stage (stages : List GoMap) (s : GoMap) :
    Except Panic PipelineTemplateStage := do
  let idType ← assertString (s.index "type")
  let idRef ← assertString (s.index "refId")
  let ty ← assertString (s.index "type")
  let reqs ← convertToStringSlice (s.index "requisiteStageRefIds")
  let dependsOn ← buildDependsOn stages reqs
  let name ← assertString (s.index "name")
  pure { ID := idType ++ idRef, Type_ := ty, DependsOn := dependsOn, Name := name,
         Config := getStageConfig s }

/-- The loop of `convertStages`. -/
def convertStages.loop (stages : List GoMap) :
    List GoMap → List PipelineTemplateStage → Except Panic (List PipelineTemplateStage)
  | [], l => .ok l
  | s :: rest, l => do
    let stage ← convertStages.stage stages s
    convertStages.loop stages rest (l ++ [stage])

/-- The function `convertStages`. -/
def convertStages (stages : List GoMap) : Except Panic (List PipelineTemplateStage) :=
  convertStages.loop stages stages []

/-- The function `convertPipelineToTemplate`; the fields of the composite
literal are evaluated in source order. -/
def convertPipelineToTemplate (badVerb : Value → String) (pipelineConfig : PipelineConfig) :
    Except Panic PipelineTemplate := do
  let id := createID pipelineConfig
  let description :=
    if pipelineConfig.Description = "" then "This template does not have a description"
    else pipelineConfig.Description
  let triggers ← convertTriggers pipelineConfig.Triggers
  let notifications ← convertNotifications badVerb pipelineConfig.Notifications
  let stages ← convertStages pipelineConfig.Stages
  pure {
    Schema := "1"
    ID := id
    Metadata := {
      Name := pipelineConfig.Name
      Description := description
      Owner := pipelineConfig.LastModifiedBy
      Scopes := [pipelineConfig.Application] }
    Protect := false
    Configuration := {
      ConcurrentExecutions :=
        [("parallel", pipelineConfig.Parallel), ("limitConcurrent", pipelineConfig.LimitConcurrent)]
      Triggers := triggers
      Parameters := pipelineConfig.Parameters
      Notifications := notifications
      ExpectedArtifacts := pipelineConfig.ExpectedArtifacts }
    Variables := []
    Stages := stages }

/-! ## Vocabulary of the specification -/

/-- A letter, a digit or the underscore, as the specification names the
characters that `createID` keeps. -/
def isWordChar (c : Char) : Bool :=
  c.isAlpha || c.isDigit || c = '_'

/-- The four structural keys of a raw stage. -/
def structuralKeys : List String :=
  ["type", "name", "refId", "requisiteStageRefIds"]

/-- The string a value holds; the empty string when it holds none. -/
def Value.asString : Value → String
  | .str s => s
  | _ => ""

/-- The `type` of a raw stage. -/
def stageType (s : GoMap) : String := (s.index "type").asString

/-- The `refId` of a raw stage. -/
def stageRefId (s : GoMap) : String := (s.index "refId").asString

/-- The `name` of a raw stage. -/
def stageName (s : GoMap) : String := (s.index "name").asString

/-- The references of a raw stage: the strings of its `requisiteStageRefIds`,
none when the field is absent. -/
def requisites (s : GoMap) : List String :=
  match s.index "requisiteStageRefIds" with
  | .arr items => items.map Value.asString
  | _ => []

/-- The required fields `type`, `refId` and `name` of a raw stage are strings. -/
def hasRequiredFields (s : GoMap) : Bool :=
  (s.index "type").isString && (s.index "refId").isString && (s.index "name").isString

/-- A well-formed raw stage: `type`, `refId` and `name` are strings and
`requisiteStageRefIds` is absent, null or a list of strings. -/
def wellFormedStage (s : GoMap) : Bool :=
  hasRequiredFields s &&
    (match s.index "requisiteStageRefIds" with
     | .null => true
     | .arr items => items.all Value.isString
     | _ => false)

/-- The `refId`s of the stages are pairwise distinct. -/
def distinctRefIds (stages : List GoMap) : Prop :=
  stages.Pairwise (fun a b => a.index "refId" ≠ b.index "refId")

instance (stages : List GoMap) : Decidable (distinctRefIds stages) := by
  unfold distinctRefIds; infer_instance

/-- The dependency list the specification describes: walk the references in
order and, for each one, emit the ID of the stage that has it as `refId`, or
nothing when no stage has. -/
def specDependsOn (stages : List GoMap) (refs : List String) : List String :=
  refs.flatMap (fun r =>
    match stages.find? (fun t => decide (t.index "refId" = .str r)) with
    | some t => [stageType t ++ stageRefId t]
    | none => [])

/-- The keys of the entries. -/
def Fields.keys (fs : Fields) : List String := fs.map Prod.fst

/-- Whether a panic is a failed type assertion. -/
def Panic.isTypeAssertion : Panic → Bool
  | .typeAssertion _ _ => true
  | .nilMapAssign => false

/-- The input stages whose `refId` is the string `r`, in input order. -/
def matchingStages (stages : List GoMap) (r : String) : List GoMap :=
  stages.filter (fun t => decide (t.index "refId" = .str r))

/-- The IDs of all input stages that a list of references names, reference by
reference. -/
def resolvedDependsOn (stages : List GoMap) (refs : List String) : List String :=
  refs.flatMap (fun r => (matchingStages stages r).map (fun t => stageType t ++ stageRefId t))

/-- The template stage of a well-formed raw stage, field by field. -/
def stageOf (stages : List GoMap) (s : GoMap) : PipelineTemplateStage :=
  { ID := stageType s ++ stageRefId s
    Type_ := stageType s
    DependsOn := resolvedDependsOn stages (requisites s)
    Name := stageName s
    Config := getStageConfig s }

/-- The trigger at index `i` once `convertTriggers` has named it. -/
def namedTrigger (i : Nat) (t : GoMap) : GoMap :=
  t.map (Fields.set "name" (.str ("unnamed" ++ fmtD i)))

/-- The notification at index `i` once `convertNotifications` has named it. -/
def namedNotification (badVerb : Value → String) (i : Nat) (n : GoMap) : GoMap :=
  n.map (Fields.set "name" (.str (fmtS badVerb (n.index "type") ++ fmtD i)))

/-- The stages of scenario A of the specification. -/
def scenarioAStages : List GoMap :=
  [some [("type", .str "deploy"), ("refId", .str "1"), ("name", .str "Deploy"),
         ("requisiteStageRefIds", .arr [])]]

/-- The stages of scenario B of the specification; the second stage carries a
configuration key of its own. -/
def scenarioBStages : List GoMap :=
  [some [("type", .str "bake"), ("refId", .str "1"), ("name", .str "Bake")],
   some [("type", .str "deploy"), ("refId", .str "2"), ("name", .str "Deploy"),
         ("requisiteStageRefIds", .arr [.str "1"]), ("account", .str "prod")]]

/-- The stage of scenario C of the specification, which has no `name`. -/
def scenarioCStage : GoMap :=
  some [("type", .str "deploy"), ("refId", .str "1")]

/-- A pipeline configuration with the given description and stages. -/
def pipelineOf (application name description : String) (stages : List GoMap) : PipelineConfig :=
  { Application := application
    Name := name
    Description := description
    LastModifiedBy := "anonymous"
    Parallel := true
    LimitConcurrent := false
    Triggers := [some [("type", .str "jenkins"), ("name", .str "nightly")]]
    Parameters := []
    Notifications := [some [("type", .str "slack")]]
    ExpectedArtifacts := []
    Stages := stages }

/-- Two triggers, the first one named already. -/
def sampleTriggers : List GoMap :=
  [some [("name", .str "nightly"), ("type", .str "cron")], some [("type", .str "git")]]

/-- Three notifications: one named already, one whose type is not a string
and one without a type. -/
def sampleNotifications : List GoMap :=
  [some [("type", .str "slack"), ("name", .str "ops")],
   some [("type", .num 7)],
   some [("address", .str "dev@example.org")]]

/-- The rendering of a non-string operand used in the scenarios. -/
def scenarioVerb : Value → String := fun _ => "%!s(?)"

/-- The template of the pipeline `pipelineOf "myapp" "Deploy App!" d
scenarioAStages`, with the description the template is to carry. -/
def scenarioATemplate (description : String) : PipelineTemplate :=
  { Schema := "1"
    ID := "myapp-DeployApp"
    Metadata := {
      Name := "Deploy App!"
      Description := description
      Owner := "anonymous"
      Scopes := ["myapp"] }
    Protect := false
    Configuration := {
      ConcurrentExecutions := [("parallel", true), ("limitConcurrent", false)]
      Triggers := [some [("name", .str "unnamed0"), ("type", .str "jenkins")]]
      Parameters := []
      Notifications := [some [("name", .str "slack0"), ("type", .str "slack")]]
      ExpectedArtifacts := [] }
    Variables := []
    Stages := [{ ID := "deploy1", Type_ := "deploy", DependsOn := [], Name := "Deploy",
                 Config := some [] }] }

/-- Two stages with distinct `refId`s whose type and `refId` concatenate to the
same text. -/
def collisionStages : List GoMap :=
  [some [("type", .str "foo1"), ("refId", .str "23"), ("name", .str "First")],
   some [("type", .str "foo"), ("refId", .str "123"), ("name", .str "Second")]]

/-- Scenario B with the reference of the second stage written twice. -/
def repeatedReferenceStages : List GoMap :=
  [some [("type", .str "bake"), ("refId", .str "1"), ("name", .str "Bake")],
   some [("type", .str "deploy"), ("refId", .str "2"), ("name", .str "Deploy"),
         ("requisiteStageRefIds", .arr [.str "1", .str "1"])]]

/-- A stage whose references name no stage, next to one it does not name. -/
def danglingStages : List GoMap :=
  [some [("type", .str "bake"), ("refId", .str "1"), ("name", .str "Bake")],
   some [("type", .str "deploy"), ("refId", .str "2"), ("name", .str "Deploy"),
         ("requisiteStageRefIds", .arr [.str "7", .str "8"])]]

/-- The pipeline of scenario A with a JSON null as its only trigger. -/
def nilTriggerPipeline : PipelineConfig :=
  { pipelineOf "myapp" "Deploy App!" "" scenarioAStages with Triggers := [none] }

/-- Whether some input stage has the string `r` as its `refId`. -/
def isResolved (stages : List GoMap) (r : String) : Bool :=
  stages.any (fun t => decide (t.index "refId" = .str r))

/-! ## The HTTP client of package spinnaker

The calls into `net/http`, `crypto/tls`, `os` and `io/ioutil` are parameters of
the embedding; a Go function that returns a value and an error returns a pair of
options here, where `none` is the nil pointer or the nil error. The characters of
a Go string are its bytes: `accessToken[i]` is the byte at `i` of the UTF-8 text.
The requests that reach `client.Do` are built by `http.NewRequest`, so their
`Header` is an allocated map. -/

/-- A run-time panic of package spinnaker. -/
inductive RuntimePanic where
  /-- An index expression past the end: the index and the length. -/
  | indexOutOfRange (index length : Nat) : RuntimePanic
  /-- A field selected through the nil pointer. -/
  | nilDereference : RuntimePanic
  /-- A call of `logrus.Panic` with its message. -/
  | logrusPanic (msg : String) : RuntimePanic
deriving DecidableEq

/-- A Go `error`: one raised by a library, or one wrapped with a message by
`errors.Wrap` and `errors.Wrapf`. -/
inductive Error where
  | base (msg : String) : Error
  | wrap (cause : Error) (msg : String) : Error
deriving DecidableEq

/-- The bytes of a Go string. -/
def goBytes (s : String) : List Nat :=
  (s.data.flatMap String.utf8EncodeChar).map UInt8.toNat

/-- The index expression `s[i]` on a string, which panics past the end. -/
def byteAt (s : String) (i : Nat) : Except RuntimePanic Nat :=
  match (goBytes s)[i]? with
  | some b => .ok b
  | none => .error (.indexOutOfRange i (goBytes s).length)

/-- A `http.Header`: the values under each (canonical) key, in order. -/
abbrev Header := List (String × List String)

/-- The method `Header.Add`: the value is appended to the values of the key. -/
def Header.Add : Header → String → String → Header
  | [], key, value => [(key, [value])]
  | (k, vs) :: rest, key, value =>
    if k = key then (k, vs ++ [value]) :: rest else (k, vs) :: Header.Add rest key value

/-- The method `Header.Values`: the values of the key, none when it is absent. -/
def Header.Values : Header → String → List String
  | [], _ => []
  | (k, vs) :: rest, key => if k = key then vs else Header.Values rest key

/-- The fields of `http.Request` that the client reads and writes; the type is
declared in `net/http`. -/
structure Request where
  Method : String
  URL : String
  Header : Header
deriving DecidableEq

/-- The `io.ReadCloser` of a response, as what `ioutil.ReadAll` and `Close`
return on it. -/
structure Body where
  data : List Nat
  readErr : Option Error
  closeErr : Option Error
deriving DecidableEq

/-- The fields of `http.Response` that the client reads; the type is declared
in `net/http`. -/
structure Response where
  StatusCode : Nat
  Body : Body
deriving DecidableEq

/-- The method `client.Do`: `httpClientDo` is `c.httpClient.Do` and `accessToken`
the package variable of that name. -/
def client.Do (httpClientDo : Request → Option Response × Option Error)
    (accessToken : String) (req : Request) :
    Except RuntimePanic (Option Response × Option Error) := do
  let req ←
    if accessToken ≠ "" then do
      let b0 ← byteAt accessToken 0
      let jwt ←
        if b0 = 'e'.toNat then do
          let b1 ← byteAt accessToken 1
          pure (decide (b1 = 'y'.toNat))
        else pure false
      if jwt then
        pure { req with Header := req.Header.Add "Authorization" ("Bearer " ++ accessToken) }
      else
        pure { req with Header := req.Header.Add "Authorization" ("Basic " ++ accessToken) }
    else pure req
  pure (httpClientDo req)

/-- The method `client.get`: `newRequest` is `http.NewRequest` without a body. -/
def client.get (newRequest : String → String → Except Error Request)
    (httpClientDo : Request → Option Response × Option Error)
    (accessToken : String) (url : String) :
    Except RuntimePanic (Option Response × Option Error) :=
  match newRequest "GET" url with
  | .error err => .ok (none, some (.wrap err "failed to create get request object"))
  | .ok req => do
    let (resp, err) ← client.Do httpClientDo accessToken req
    match err with
    | some e => pure (none, some (.wrap e ("getting from " ++ url)))
    | none => pure (resp, none)

/-- The method `client.getJSON`, returning `resp`, `respBody` and `err`. The
deferred closure runs after the results are set; when `resp` is nil the
selection `resp.Body` panics, in the body and again in the deferred closure. -/
def client.getJSON (newRequest : String → String → Except Error Request)
    (httpClientDo : Request → Option Response × Option Error)
    (accessToken : String) (url : String) :
    Except RuntimePanic (Option Response × Option (List Nat) × Option Error) := do
  let (resp, _) ← client.get newRequest httpClientDo accessToken url
  match resp with
  | none => .error .nilDereference
  | some r =>
    match r.Body.readErr with
    | some e =>
      let err := Error.wrap e ("failed to read response body from url " ++ url)
      match r.Body.closeErr with
      | some _ => pure (none, none, some (.wrap err ("failed to close response body from " ++ url)))
      | none => pure (none, none, some err)
    | none => pure (some r, some r.Body.data, none)

/-- The global flags of the `cli.Context` that the factory reads; `some v` is
a flag that is set, with its value. -/
structure Context where
  apiSession : Option String
  clientTimeout : Int
  accessToken : Option String
  certPath : Option String
  keyPath : Option String
  insecure : Bool
deriving DecidableEq

/-- What the factory reads from outside the program: the environment, the
parsing of a URL, and the files of the certificate and the key. -/
structure World where
  getenv : String → String
  parseURL : String → Option String
  loadX509KeyPair : String → String → Except Error String
  readFile : String → Except Error (List Nat)

/-- The fields of `tls.Config` that the factory sets; the zero value is the
configuration of the literal without fields. -/
structure TLSConfig where
  MinVersion : Nat
  PreferServerCipherSuites : Bool
  Certificates : List String
  InsecureSkipVerify : Bool
deriving DecidableEq

/-- The `http.Client` that the factory builds: the timeout in seconds, the calls of `SetCookies` made on its jar (the parsed URL,
nil when parsing failed, with the cookies as name and value) and the TLS
configuration of its transport. -/
structure HTTPClient where
  Timeout : Int
  Jar : List (Option String × List (String × String))
  TLSClientConfig : TLSConfig
deriving DecidableEq

/-- The constant `tls.VersionTLS12`. -/
def VersionTLS12 : Nat := 0x0303

/-- The value a flag gets in the factory: that of the flag when it is set,
else that of the environment variable, which is the empty string when unset. -/
def flagOrEnv (w : World) (flag : Option String) (envName : String) : String :=
  match flag with
  | some v => v
  | none => if w.getenv envName ≠ "" then w.getenv envName else ""

/-- The function `DefaultHTTPClientFactory`: it returns the value it leaves in
the package variable `accessToken`, and the client or the error. -/
def DefaultHTTPClientFactory (w : World) (cc : Option Context) :
    Except RuntimePanic (String × Except Error HTTPClient) :=
  match cc with
  | none => .error (.logrusPanic "cli context has not been set")
  | some cc =>
    let jar : List (Option String × List (String × String)) :=
      match cc.apiSession with
      | some v => [(w.parseURL (w.getenv "SPINNAKER_API"), [("SESSION", v)])]
      | none => []
    let accessToken := flagOrEnv w cc.accessToken "SPINNAKER_ACCESS_TOKEN"
    let certPath := flagOrEnv w cc.certPath "SPINNAKER_CLIENT_CERT"
    let keyPath := flagOrEnv w cc.keyPath "SPINNAKER_CLIENT_KEY"
    let tlsConfig : TLSConfig :=
      { MinVersion := 0, PreferServerCipherSuites := false, Certificates := [],
        InsecureSkipVerify := false }
    let loaded : Except Error TLSConfig :=
      if certPath ≠ "" ∧ keyPath ≠ "" then
        match w.loadX509KeyPair certPath keyPath with
        | .error err => .error (.wrap err "loading x509 keypair")
        | .ok cert =>
          match w.readFile certPath with
          | .error err => .error (.wrap err "loading client CA")
          | .ok _ =>
            .ok { tlsConfig with
                  MinVersion := VersionTLS12
                  PreferServerCipherSuites := true
                  Certificates := [cert]
                  InsecureSkipVerify := true }
      else .ok tlsConfig
    match loaded with
    | .error err => .ok (accessToken, .error err)
    | .ok tlsConfig =>
      let tlsConfig :=
        if cc.insecure then { tlsConfig with InsecureSkipVerify := true } else tlsConfig
      .ok (accessToken, .ok { Timeout := cc.clientTimeout, Jar := jar, TLSClientConfig := tlsConfig })

/-- A request as `http.NewRequest` builds it, with an empty header. -/
def sampleNewRequest : String → String → Except Error Request :=
  fun method url => .ok { Method := method, URL := url, Header := [] }

/-- A transport that answers every request with one response. -/
def sampleTransport : Request → Option Response × Option Error :=
  fun _ => (some { StatusCode := 200, Body := { data := [123, 125], readErr := none,
                                                closeErr := none } }, none)

/-- A transport on which every request fails. -/
def failingTransport : Request → Option Response × Option Error :=
  fun _ => (none, some (.base "dial tcp: connection refused"))

/-- A world with a certificate and a key on disk and an empty environment. -/
def sampleWorld : World :=
  { getenv := fun _ => ""
    parseURL := fun u => some u
    loadX509KeyPair := fun cert key => .ok (cert ++ "+" ++ key)
    readFile := fun _ => .ok [] }

/-- The flags of a run with a certificate and a key and without `insecure`. -/
def certContext : Context :=
  { apiSession := none, clientTimeout := 30, accessToken := none,
    certPath := some "client.crt", keyPath := some "client.key", insecure := false }

/-! ## The source document as explicit state

A map is a reference type: the store holds the entries of every allocated map
at its address, and a value of map type is nil or an address. -/

/-- The store: the entries of the map at each address. -/
abbrev Store := List Fields

/-- A value of type `map[string]interface{}`: `none` is nil, `some a` the map
at address `a`. -/
abbrev Ref := Option Nat

/-- The map a reference stands for; an address the store does not hold reads as
the nil map. -/
def Store.deref (σ : Store) (r : Ref) : GoMap :=
  match r with
  | none => none
  | some a => σ[a]?

/-- Whether a reference is the address of an allocated map. -/
def Store.holds (σ : Store) (r : Ref) : Bool :=
  match r with
  | none => false
  | some a => decide (a < σ.length)

/-- The entries at address `a` replaced by their image under `f`. -/
def Store.update (σ : Store) (a : Nat) (f : Fields → Fields) : Store :=
  match σ[a]? with
  | some fs => σ.set a (f fs)
  | none => σ

/-- The assignment `m[k] = v` through a reference: it writes the map in the
store, and panics on nil. -/
def Store.assign (σ : Store) (r : Ref) (k : String) (v : Value) : Except Panic Store :=
  match r with
  | none => .error .nilMapAssign
  | some a =>
    if a < σ.length then .ok (Store.update σ a (Fields.set k v)) else .error .nilMapAssign

/-- The loop of `convertTriggers` on references: the name is written into the
caller's map and the reference itself is appended to the result. -/
def convertTriggersSt.loop : Nat → List Ref → List Ref → Store → Except Panic (Store × List Ref)
  | _, [], l, σ => .ok (σ, l)
  | i, t :: rest, l, σ => do
    let σ' ← Store.assign σ t "name" (.str ("unnamed" ++ fmtD i))
    convertTriggersSt.loop (i + 1) rest (l ++ [t]) σ'

/-- The function `convertTriggers` on references. -/
def convertTriggersSt (σ : Store) (triggers : List Ref) : Except Panic (Store × List Ref) :=
  convertTriggersSt.loop 0 triggers [] σ

/-- The loop of `convertNotifications` on references. -/
def convertNotificationsSt.loop (badVerb : Value → String) :
    Nat → List Ref → List Ref → Store → Except Panic (Store × List Ref)
  | _, [], l, σ => .ok (σ, l)
  | i, n :: rest, l, σ => do
    let σ' ← Store.assign σ n "name"
      (.str (fmtS badVerb ((Store.deref σ n).index "type") ++ fmtD i))
    convertNotificationsSt.loop badVerb (i + 1) rest (l ++ [n]) σ'

/-- The function `convertNotifications` on references. -/
def convertNotificationsSt (badVerb : Value → String) (σ : Store) (notifications : List Ref) :
    Except Panic (Store × List Ref) :=
  convertNotificationsSt.loop badVerb 0 notifications [] σ

/-- The function `getStageConfig` on references: `config` is a freshly
allocated map, and every write goes to it. -/
def getStageConfigSt (σ : Store) (s : Ref) : Store × Ref :=
  let config := σ.length
  let σ := σ ++ [[]]
  let σ := (Store.deref σ s).entries.foldr
    (fun e τ => Store.update τ config (Fields.set e.1 e.2)) σ
  let σ := Store.update σ config (Fields.delete "type")
  let σ := Store.update σ config (Fields.delete "name")
  let σ := Store.update σ config (Fields.delete "refId")
  let σ := Store.update σ config (Fields.delete "requisiteStageRefIds")
  (σ, some config)

/-- Modelled from the spec: the type declaration `PipelineTemplateStage`, with
its `Config` as a reference. -/
structure PipelineTemplateStageSt where
  ID : String
  Type_ : String
  DependsOn : List String
  Name : String
  Config : Ref
deriving DecidableEq

/-- Modelled from the spec: the type declaration `spinnaker.PipelineConfig`,
with its maps as references. -/
structure PipelineConfigSt where
  Application : String
  Name : String
  Description : String
  LastModifiedBy : String
  Parallel : Bool
  LimitConcurrent : Bool
  Triggers : List Ref
  Parameters : List Ref
  Notifications : List Ref
  ExpectedArtifacts : List Ref
  Stages : List Ref
deriving DecidableEq

/-- Modelled from the spec: the type declaration `PipelineTemplateConfig`, with
its maps as references. -/
structure PipelineTemplateConfigSt where
  ConcurrentExecutions : List (String × Bool)
  Triggers : List Ref
  Parameters : List Ref
  Notifications : List Ref
  ExpectedArtifacts : List Ref
deriving DecidableEq

/-- Modelled from the spec: the type declaration `PipelineTemplate`, with its
maps as references. -/
structure PipelineTemplateSt where
  Schema : String
  ID : String
  Metadata : PipelineTemplateMetadata
  Protect : Bool
  Configuration : PipelineTemplateConfigSt
  Variables : List Value
  Stages : List PipelineTemplateStageSt
deriving DecidableEq

/-- The pipeline configuration by value: every reference replaced by the map
it stands for in the store. -/
def PipelineConfigSt.snapshot (σ : Store) (doc : PipelineConfigSt) : PipelineConfig :=
  { Application := doc.Application
    Name := doc.Name
    Description := doc.Description
    LastModifiedBy := doc.LastModifiedBy
    Parallel := doc.Parallel
    LimitConcurrent := doc.LimitConcurrent
    Triggers := doc.Triggers.map (Store.deref σ)
    Parameters := doc.Parameters.map (Store.deref σ)
    Notifications := doc.Notifications.map (Store.deref σ)
    ExpectedArtifacts := doc.ExpectedArtifacts.map (Store.deref σ)
    Stages := doc.Stages.map (Store.deref σ) }

/-- The body of the loop of `convertStages` on references: the stage is read
through the store, and its `Config` is allocated by `getStageConfig`. -/
def convertStagesSt.stage (σ : Store) (stages : List Ref) (s : Ref) :
    Except Panic (Store × PipelineTemplateStageSt) := do
  let idType ← assertString ((Store.deref σ s).index "type")
  let idRef ← assertString ((Store.deref σ s).index "refId")
  let ty ← assertString ((Store.deref σ s).index "type")
  let reqs ← convertToStringSlice ((Store.deref σ s).index "requisiteStageRefIds")
  let dependsOn ← buildDependsOn (stages.map (Store.deref σ)) reqs
  let name ← assertString ((Store.deref σ s).index "name")
  let (σ', config) := getStageConfigSt σ s
  pure (σ', { ID := idType ++ idRef, Type_ := ty, DependsOn := dependsOn, Name := name,
              Config := config })

/-- The loop of `convertStages` on references. -/
def convertStagesSt.loop (stages : List Ref) :
    List Ref → List PipelineTemplateStageSt → Store →
      Except Panic (Store × List PipelineTemplateStageSt)
  | [], l, σ => .ok (σ, l)
  | s :: rest, l, σ => do
    let (σ', stage) ← convertStagesSt.stage σ stages s
    convertStagesSt.loop stages rest (l ++ [stage]) σ'

/-- The function `convertStages` on references. -/
def convertStagesSt (σ : Store) (stages : List Ref) :
    Except Panic (Store × List PipelineTemplateStageSt) :=
  convertStagesSt.loop stages stages [] σ

/-- The function `convertPipelineToTemplate` on references, with the store it
leaves. -/
def convertPipelineToTemplateSt (badVerb : Value → String) (σ : Store)
    (pipelineConfig : PipelineConfigSt) : Except Panic (Store × PipelineTemplateSt) := do
  let id := createID (pipelineConfig.snapshot σ)
  let description :=
    if pipelineConfig.Description = "" then "This template does not have a description"
    else pipelineConfig.Description
  let (σ, triggers) ← convertTriggersSt σ pipelineConfig.Triggers
  let (σ, notifications) ← convertNotificationsSt badVerb σ pipelineConfig.Notifications
  let (σ, stages) ← convertStagesSt σ pipelineConfig.Stages
  pure (σ, {
    Schema := "1"
    ID := id
    Metadata := {
      Name := pipelineConfig.Name
      Description := description
      Owner := pipelineConfig.LastModifiedBy
      Scopes := [pipelineConfig.Application] }
    Protect := false
    Configuration := {
      ConcurrentExecutions :=
        [("parallel", pipelineConfig.Parallel), ("limitConcurrent", pipelineConfig.LimitConcurrent)]
      Triggers := triggers
      Parameters := pipelineConfig.Parameters
      Notifications := notifications
      ExpectedArtifacts := pipelineConfig.ExpectedArtifacts }
    Variables := []
    Stages := stages })

/-- The loop shared by `convertTriggersSt` and `convertNotificationsSt`: the
name of the entry at index `i` is `mk i` of the map the entry stands for. -/
def assignNames (mk : Nat → GoMap → Value) :
    Nat → List Ref → List Ref → Store → Except Panic (Store × List Ref)
  | _, [], l, σ => .ok (σ, l)
  | i, t :: rest, l, σ => do
    let σ' ← Store.assign σ t "name" (mk i (Store.deref σ t))
    assignNames mk (i + 1) rest (l ++ [t]) σ'

/-- A store with two triggers, a notification and the two stages of scenario B
at the addresses 0 to 4. -/
def sampleStore : Store :=
  [[("name", .str "nightly"), ("type", .str "cron")],
   [("type", .str "git")],
   [("type", .str "slack")],
   [("type", .str "bake"), ("refId", .str "1"), ("name", .str "Bake")],
   [("type", .str "deploy"), ("refId", .str "2"), ("name", .str "Deploy"),
    ("requisiteStageRefIds", .arr [.str "1"]), ("account", .str "prod")]]

/-- A pipeline configuration over `sampleStore`. -/
def sampleDocument : PipelineConfigSt :=
  { Application := "myapp"
    Name := "Deploy App!"
    Description := ""
    LastModifiedBy := "anonymous"
    Parallel := true
    LimitConcurrent := false
    Triggers := [some 0, some 1]
    Parameters := []
    Notifications := [some 2]
    ExpectedArtifacts := []
    Stages := [some 3, some 4] }

/-- The store that the conversion of `sampleDocument` leaves: the triggers and
the notification are named in place, the stages are as before, and the two
configurations are allocated at the addresses 5 and 6. -/
def sampleStoreAfter : Store :=
  [[("name", .str "unnamed0"), ("type", .str "cron")],
   [("name", .str "unnamed1"), ("type", .str "git")],
   [("name", .str "slack0"), ("type", .str "slack")],
   [("type", .str "bake"), ("refId", .str "1"), ("name", .str "Bake")],
   [("type", .str "deploy"), ("refId", .str "2"), ("name", .str "Deploy"),
    ("requisiteStageRefIds", .arr [.str "1"]), ("account", .str "prod")],
   [],
   [("account", .str "prod")]]

/-- The template of `sampleDocument`, its maps as references into
`sampleStoreAfter`. -/
def sampleTemplateSt : PipelineTemplateSt :=
  { Schema := "1"
    ID := "myapp-DeployApp"
    Metadata := {
      Name := "Deploy App!"
      Description := "This template does not have a description"
      Owner := "anonymous"
      Scopes := ["myapp"] }
    Protect := false
    Configuration := {
      ConcurrentExecutions := [("parallel", true), ("limitConcurrent", false)]
      Triggers := [some 0, some 1]
      Parameters := []
      Notifications := [some 2]
      ExpectedArtifacts := [] }
    Variables := []
    Stages := [{ ID := "bake1", Type_ := "bake", DependsOn := [], Name := "Bake",
                 Config := some 5 },
               { ID := "deploy2", Type_ := "deploy", DependsOn := ["bake1"], Name := "Deploy",
                 Config := some 6 }] }

/-! ## Lemmas on the embedding -/

theorem bind_ok {α β : Type} (a : α) (f : α → Except Panic β) :
    (Except.ok a >>= f) = f a := rfl

theorem bind_error {α β : Type} (e : Panic) (f : α → Except Panic β) :
    (Except.error e >>= f) = Except.error e := rfl

theorem isNonWord_eq (c : Char) : isNonWord c = !isWordChar c := by
  simp only [isNonWord, isWordChar, Char.isAlpha, Char.isDigit, Char.isUpper, Char.isLower]
  have h1 : ∀ a b : Char, decide (a ≤ b) = decide (a.val ≤ b.val) := fun a b => rfl
  have h2 : ∀ a b : UInt32, decide (a ≥ b) = decide (b ≤ a) := fun a b => rfl
  simp only [h1, h2]
  have e0 : ('0' : Char).val = 48 := rfl
  have e9 : ('9' : Char).val = 57 := rfl
  have eA : ('A' : Char).val = 65 := rfl
  have eZ : ('Z' : Char).val = 90 := rfl
  have ea : ('a' : Char).val = 97 := rfl
  have ez : ('z' : Char).val = 122 := rfl
  rw [e0, e9, eA, eZ, ea, ez]
  cases decide ((48 : UInt32) ≤ c.val) <;> cases decide (c.val ≤ (57 : UInt32)) <;>
    cases decide ((65 : UInt32) ≤ c.val) <;> cases decide (c.val ≤ (90 : UInt32)) <;>
    cases decide ((97 : UInt32) ≤ c.val) <;> cases decide (c.val ≤ (122 : UInt32)) <;>
    cases decide (c = '_') <;> rfl

theorem replaceAllClass.loop_nil (cls : Char → Bool) (cs out : List Char) :
    replaceAllClass.loop cls [] cs out = out ++ cs.filter (fun c => !cls c) := by
  induction cs generalizing out with
  | nil => simp [replaceAllClass.loop]
  | cons c rest ih =>
    by_cases h : cls c <;> simp [replaceAllClass.loop, h, ih]

theorem Fields.get?_delete (k k' : String) (fs : Fields) :
    (Fields.delete k fs).get? k' = if k' = k then none else fs.get? k' := by
  induction fs with
  | nil => simp [Fields.delete, Fields.get?]
  | cons e rest ih =>
    obtain ⟨a, v⟩ := e
    simp only [Fields.delete] at ih
    by_cases ha : a = k
    · subst ha
      by_cases hk : k' = a
      · simp [Fields.delete, hk] at ih ⊢
        simpa [hk] using ih
      · have hk2 : ¬ a = k' := fun h => hk h.symm
        simp [Fields.delete, Fields.get?, hk, hk2] at ih ⊢
        simpa [hk] using ih
    · by_cases hk : k' = k
      · subst hk
        simp [Fields.delete, Fields.get?, ha] at ih ⊢
        simpa using ih
      · by_cases hak : a = k'
        · simp [Fields.delete, Fields.get?, ha, hk, hak]
        · simp [Fields.delete, Fields.get?, ha, hk, hak] at ih ⊢
          simpa [hk] using ih

theorem Fields.get?_set (k k' : String) (v : Value) (fs : Fields) :
    (Fields.set k v fs).get? k' = if k' = k then some v else fs.get? k' := by
  by_cases hk : k' = k
  · subst hk
    simp [Fields.set, Fields.get?]
  · have hk2 : ¬ k = k' := fun h => hk h.symm
    simp [Fields.set, Fields.get?, hk, hk2, Fields.get?_delete]

theorem Fields.delete_eq_self (k : String) (fs : Fields) (h : k ∉ fs.keys) :
    Fields.delete k fs = fs := by
  unfold Fields.delete
  rw [List.filter_eq_self]
  intro e he
  have : e.1 ∈ fs.keys := List.mem_map_of_mem Prod.fst he
  simp only [decide_eq_true_eq]
  intro hk
  exact h (hk ▸ this)

theorem Fields.keys_delete (k : String) (fs : Fields) :
    (Fields.delete k fs).keys = fs.keys.filter (fun a => decide (a ≠ k)) := by
  unfold Fields.delete Fields.keys
  rw [List.filter_map]
  rfl

theorem Fields.not_mem_keys_delete (k : String) (fs : Fields) :
    k ∉ (Fields.delete k fs).keys := by
  rw [Fields.keys_delete]
  simp

theorem Fields.not_mem_keys_delete_of (k k' : String) (fs : Fields) (h : k' ∉ fs.keys) :
    k' ∉ (Fields.delete k fs).keys := by
  rw [Fields.keys_delete]
  intro hm
  exact h (List.mem_filter.mp hm).1

theorem Fields.nodup_keys_delete (k : String) (fs : Fields) (h : fs.keys.Nodup) :
    (Fields.delete k fs).keys.Nodup := by
  rw [Fields.keys_delete]
  exact h.filter _

/-- The copy loop of `getStageConfig` on the entries. -/
theorem Fields.get?_copy (fs : Fields) (k : String) :
    (fs.foldr (fun e c => Fields.set e.1 e.2 c) []).get? k = fs.get? k := by
  induction fs with
  | nil => rfl
  | cons e rest ih =>
    obtain ⟨a, v⟩ := e
    rw [List.foldr_cons, Fields.get?_set, ih]
    by_cases h : a = k
    · simp [h, Fields.get?]
    · have h2 : ¬ k = a := fun x => h x.symm
      simp [h, h2, Fields.get?]

theorem Fields.nodup_keys_copy (fs : Fields) :
    (fs.foldr (fun e c => Fields.set e.1 e.2 c) []).keys.Nodup := by
  induction fs with
  | nil => simp [Fields.keys]
  | cons e rest ih =>
    rw [List.foldr_cons]
    show (Fields.keys ((e.1, e.2) :: Fields.delete e.1 _)).Nodup
    have hcons : ∀ l : Fields, Fields.keys ((e.1, e.2) :: l) = e.1 :: Fields.keys l :=
      fun _ => rfl
    rw [hcons, List.nodup_cons]
    exact ⟨Fields.not_mem_keys_delete e.1 _, Fields.nodup_keys_delete e.1 _ ih⟩

theorem Fields.copy_eq_self (fs : Fields) (h : fs.keys.Nodup) :
    fs.foldr (fun e c => Fields.set e.1 e.2 c) [] = fs := by
  induction fs with
  | nil => rfl
  | cons e rest ih =>
    have hcons : Fields.keys (e :: rest) = e.1 :: Fields.keys rest := rfl
    rw [hcons, List.nodup_cons] at h
    rw [List.foldr_cons, ih h.2]
    show (e.1, e.2) :: Fields.delete e.1 rest = e :: rest
    rw [Fields.delete_eq_self e.1 rest h.1]

theorem getStageConfig_eq (s : GoMap) :
    getStageConfig s = some (Fields.delete "requisiteStageRefIds" (Fields.delete "refId"
      (Fields.delete "name" (Fields.delete "type"
        (s.entries.foldr (fun e c => Fields.set e.1 e.2 c) []))))) := rfl

theorem GoMap.get?_entries (s : GoMap) (k : String) : s.entries.get? k = s.lookup k := by
  cases s <;> rfl

theorem getStageConfig_lookup (s : GoMap) (k : String) :
    (getStageConfig s).lookup k = if k ∈ structuralKeys then none else s.lookup k := by
  rw [getStageConfig_eq]
  simp only [GoMap.lookup, Fields.get?_delete, Fields.get?_copy, GoMap.get?_entries,
    structuralKeys, List.mem_cons, List.mem_singleton, List.not_mem_nil, or_false]
  by_cases h1 : k = "type" <;> by_cases h2 : k = "name" <;> by_cases h3 : k = "refId" <;>
    by_cases h4 : k = "requisiteStageRefIds" <;> simp [h1, h2, h3, h4]

theorem getStageConfig_idem (s : GoMap) : getStageConfig (getStageConfig s) = getStageConfig s := by
  have hnd := Fields.nodup_keys_copy s.entries
  generalize hc : s.entries.foldr (fun e c => Fields.set e.1 e.2 c) [] = c at hnd
  have e1 : getStageConfig s = some (Fields.delete "requisiteStageRefIds" (Fields.delete "refId"
      (Fields.delete "name" (Fields.delete "type" c)))) := by rw [getStageConfig_eq, hc]
  generalize hd : Fields.delete "requisiteStageRefIds" (Fields.delete "refId"
      (Fields.delete "name" (Fields.delete "type" c))) = d at e1
  have hdn : d.keys.Nodup := by
    rw [← hd]
    exact Fields.nodup_keys_delete _ _ (Fields.nodup_keys_delete _ _
      (Fields.nodup_keys_delete _ _ (Fields.nodup_keys_delete _ _ hnd)))
  have h4 : "requisiteStageRefIds" ∉ d.keys := by
    rw [← hd]; exact Fields.not_mem_keys_delete _ _
  have h3 : "refId" ∉ d.keys := by
    rw [← hd]
    exact Fields.not_mem_keys_delete_of _ _ _ (Fields.not_mem_keys_delete _ _)
  have h2 : "name" ∉ d.keys := by
    rw [← hd]
    exact Fields.not_mem_keys_delete_of _ _ _ (Fields.not_mem_keys_delete_of _ _ _
      (Fields.not_mem_keys_delete _ _))
  have h1 : "type" ∉ d.keys := by
    rw [← hd]
    exact Fields.not_mem_keys_delete_of _ _ _ (Fields.not_mem_keys_delete_of _ _ _
      (Fields.not_mem_keys_delete_of _ _ _ (Fields.not_mem_keys_delete _ _)))
  rw [e1, getStageConfig_eq]
  show some (Fields.delete "requisiteStageRefIds" (Fields.delete "refId"
      (Fields.delete "name" (Fields.delete "type"
        (d.foldr (fun e c => Fields.set e.1 e.2 c) []))))) = some d
  rw [Fields.copy_eq_self d hdn, Fields.delete_eq_self _ d h1, Fields.delete_eq_self _ d h2,
    Fields.delete_eq_self _ d h3, Fields.delete_eq_self _ d h4]

theorem assertString_of_isString (v : Value) (h : v.isString = true) :
    assertString v = .ok v.asString := by
  cases v <;> first | rfl | simp [Value.isString] at h

theorem index_eq_of_isString (v : Value) (h : v.isString = true) : v = .str v.asString := by
  cases v <;> first | rfl | simp [Value.isString] at h

theorem assertString_error_of_not_isString (v : Value) (h : v.isString = false) :
    assertString v = .error (.typeAssertion v.typeName "string") := by
  cases v <;> first | rfl | simp [Value.isString] at h

theorem assertString_error_kind (v : Value) (e : Panic) (h : assertString v = .error e) :
    e.isTypeAssertion = true := by
  cases v <;> simp [assertString] at h <;> (subst h; rfl)

theorem assertSlice_error_kind (v : Value) (e : Panic) (h : assertSlice v = .error e) :
    e.isTypeAssertion = true := by
  cases v <;> simp [assertSlice] at h <;> (subst h; rfl)

theorem convertToStringSlice_loop_ok (vs : List Value) (acc : List String)
    (h : vs.all Value.isString = true) :
    convertToStringSlice.loop vs acc = .ok (acc ++ vs.map Value.asString) := by
  induction vs generalizing acc with
  | nil => simp [convertToStringSlice.loop]
  | cons v rest ih =>
    simp only [List.all_cons, Bool.and_eq_true] at h
    rw [convertToStringSlice.loop, assertString_of_isString v h.1, bind_ok, ih _ h.2]
    simp

theorem convertToStringSlice_loop_error_kind (vs : List Value) (acc : List String) (e : Panic)
    (h : convertToStringSlice.loop vs acc = .error e) : e.isTypeAssertion = true := by
  induction vs generalizing acc with
  | nil => simp [convertToStringSlice.loop] at h
  | cons v rest ih =>
    rw [convertToStringSlice.loop] at h
    cases hv : assertString v with
    | error e' =>
      rw [hv, bind_error] at h
      cases h
      exact assertString_error_kind v _ hv
    | ok x =>
      rw [hv, bind_ok] at h
      exact ih _ h

theorem convertToStringSlice_error_kind (v : Value) (e : Panic)
    (h : convertToStringSlice v = .error e) : e.isTypeAssertion = true := by
  cases v with
  | null => simp [convertToStringSlice] at h
  | arr items =>
    simp only [convertToStringSlice, assertSlice, bind_ok] at h
    exact convertToStringSlice_loop_error_kind _ _ _ h
  | bool b => simp [convertToStringSlice, assertSlice, bind_error] at h; subst h; rfl
  | num n => simp [convertToStringSlice, assertSlice, bind_error] at h; subst h; rfl
  | str x => simp [convertToStringSlice, assertSlice, bind_error] at h; subst h; rfl
  | obj fs => simp [convertToStringSlice, assertSlice, bind_error] at h; subst h; rfl

theorem convertToStringSlice_ok (s : GoMap) (h : wellFormedStage s = true) :
    convertToStringSlice (s.index "requisiteStageRefIds") = .ok (requisites s) := by
  simp only [wellFormedStage, Bool.and_eq_true] at h
  have h2 := h.2
  unfold requisites
  cases hv : s.index "requisiteStageRefIds" with
  | null => rfl
  | arr items =>
    rw [hv] at h2
    simp only [convertToStringSlice, assertSlice, bind_ok]
    rw [convertToStringSlice_loop_ok items [] h2]
    simp
  | bool b => rw [hv] at h2; simp at h2
  | num n => rw [hv] at h2; simp at h2
  | str x => rw [hv] at h2; simp at h2
  | obj fs => rw [hv] at h2; simp at h2

theorem GoMap.lookup_of_index_isString (s : GoMap) (k : String)
    (h : (s.index k).isString = true) : s.lookup k = some (.str (s.index k).asString) := by
  unfold GoMap.index at h ⊢
  cases hl : s.lookup k with
  | none => rw [hl] at h; simp [Value.isString] at h
  | some v =>
    rw [hl] at h
    simp only [Option.getD_some] at h ⊢
    rw [← index_eq_of_isString v h]

theorem buildDependsOn.inner_ok (refID : String) (stages : List GoMap) (l : List String)
    (h : ∀ t ∈ stages, hasRequiredFields t = true) :
    buildDependsOn.inner refID stages l =
      .ok (l ++ (matchingStages stages refID).map (fun t => stageType t ++ stageRefId t)) := by
  induction stages generalizing l with
  | nil => simp [buildDependsOn.inner, matchingStages]
  | cons s rest ih =>
    have hs := h s (List.mem_cons_self _ _)
    have hrest : ∀ t ∈ rest, hasRequiredFields t = true :=
      fun t ht => h t (List.mem_cons_of_mem _ ht)
    simp only [hasRequiredFields, Bool.and_eq_true] at hs
    have hty : s.index "type" = .str (stageType s) := index_eq_of_isString _ hs.1.1
    have hri : s.index "refId" = .str (stageRefId s) := index_eq_of_isString _ hs.1.2
    have hlk : s.lookup "refId" = some (.str (stageRefId s)) :=
      GoMap.lookup_of_index_isString s "refId" hs.1.2
    rw [buildDependsOn.inner, hlk]
    simp only [assertString, bind_ok]
    by_cases hm : stageRefId s = refID
    · have hf : matchingStages (s :: rest) refID = s :: matchingStages rest refID := by
        simp [matchingStages, hri, hm]
      rw [if_pos hm, hty]
      simp only [bind_ok]
      rw [ih _ hrest, hf]
      simp
    · have hf : matchingStages (s :: rest) refID = matchingStages rest refID := by
        simp [matchingStages, hri, hm]
      rw [if_neg hm, ih _ hrest, hf]

theorem buildDependsOn.inner_error_kind (refID : String) (stages : List GoMap) (l : List String)
    (e : Panic) (h : buildDependsOn.inner refID stages l = .error e) :
    e.isTypeAssertion = true := by
  induction stages generalizing l with
  | nil => simp [buildDependsOn.inner] at h
  | cons s rest ih =>
    rw [buildDependsOn.inner] at h
    cases hl : s.lookup "refId" with
    | none =>
      rw [hl] at h
      exact ih _ h
    | some v =>
      rw [hl] at h
      simp only at h
      cases hv : assertString v with
      | error e' =>
        rw [hv, bind_error] at h
        cases h
        exact assertString_error_kind v _ hv
      | ok target =>
        rw [hv, bind_ok] at h
        by_cases hm : target = refID
        · rw [if_pos hm] at h
          cases ht : assertString (s.index "type") with
          | error e' =>
            rw [ht, bind_error] at h
            cases h
            exact assertString_error_kind _ _ ht
          | ok ty =>
            rw [ht, bind_ok] at h
            exact ih _ h
        · rw [if_neg hm] at h
          exact ih _ h

theorem buildDependsOn.outer_ok (stages : List GoMap) (refs : List String) (l : List String)
    (h : ∀ t ∈ stages, hasRequiredFields t = true) :
    buildDependsOn.outer stages refs l = .ok (l ++ resolvedDependsOn stages refs) := by
  induction refs generalizing l with
  | nil => simp [buildDependsOn.outer, resolvedDependsOn]
  | cons r rest ih =>
    rw [buildDependsOn.outer, buildDependsOn.inner_ok r stages l h, bind_ok, ih]
    simp [resolvedDependsOn]

theorem buildDependsOn.outer_error_kind (stages : List GoMap) (refs : List String)
    (l : List String) (e : Panic) (h : buildDependsOn.outer stages refs l = .error e) :
    e.isTypeAssertion = true := by
  induction refs generalizing l with
  | nil => simp [buildDependsOn.outer] at h
  | cons r rest ih =>
    rw [buildDependsOn.outer] at h
    cases hi : buildDependsOn.inner r stages l with
    | error e' =>
      rw [hi, bind_error] at h
      cases h
      exact buildDependsOn.inner_error_kind _ _ _ _ hi
    | ok l' =>
      rw [hi, bind_ok] at h
      exact ih _ h

theorem buildDependsOn_ok (stages : List GoMap) (refs : List String)
    (h : ∀ t ∈ stages, hasRequiredFields t = true) :
    buildDependsOn stages refs = .ok (resolvedDependsOn stages refs) := by
  rw [buildDependsOn, buildDependsOn.outer_ok stages refs [] h]
  simp

theorem wellFormedStage_required (s : GoMap) (h : wellFormedStage s = true) :
    hasRequiredFields s = true := by
  simp only [wellFormedStage, Bool.and_eq_true] at h
  exact h.1

theorem convertStages.stage_ok (stages : List GoMap) (s : GoMap)
    (h : ∀ t ∈ stages, hasRequiredFields t = true) (hs : wellFormedStage s = true) :
    convertStages.stage stages s = .ok (stageOf stages s) := by
  have hr := wellFormedStage_required s hs
  simp only [hasRequiredFields, Bool.and_eq_true] at hr
  unfold convertStages.stage
  rw [assertString_of_isString _ hr.1.1, bind_ok, assertString_of_isString _ hr.1.2, bind_ok,
    bind_ok, convertToStringSlice_ok s hs, bind_ok, buildDependsOn_ok stages _ h, bind_ok,
    assertString_of_isString _ hr.2, bind_ok]
  rfl

theorem convertStages.stage_error_kind (stages : List GoMap) (s : GoMap) (e : Panic)
    (h : convertStages.stage stages s = .error e) : e.isTypeAssertion = true := by
  unfold convertStages.stage at h
  cases h1 : assertString (s.index "type") with
  | error e' => rw [h1, bind_error] at h; cases h; exact assertString_error_kind _ _ h1
  | ok ty =>
    rw [h1, bind_ok] at h
    cases h2 : assertString (s.index "refId") with
    | error e' => rw [h2, bind_error] at h; cases h; exact assertString_error_kind _ _ h2
    | ok ref =>
      rw [h2, bind_ok, bind_ok] at h
      cases h3 : convertToStringSlice (s.index "requisiteStageRefIds") with
      | error e' =>
        rw [h3, bind_error] at h; cases h; exact convertToStringSlice_error_kind _ _ h3
      | ok reqs =>
        rw [h3, bind_ok] at h
        cases h4 : buildDependsOn stages reqs with
        | error e' =>
          rw [h4, bind_error] at h; cases h
          exact buildDependsOn.outer_error_kind _ _ _ _ h4
        | ok deps =>
          rw [h4, bind_ok] at h
          cases h5 : assertString (s.index "name") with
          | error e' => rw [h5, bind_error] at h; cases h; exact assertString_error_kind _ _ h5
          | ok nm => rw [h5, bind_ok] at h; cases h

theorem convertStages.stage_error_of_malformed (stages : List GoMap) (s : GoMap)
    (h : hasRequiredFields s = false) : ∃ e, convertStages.stage stages s = .error e := by
  cases hr : convertStages.stage stages s with
  | error e => exact ⟨e, rfl⟩
  | ok o =>
    exfalso
    unfold convertStages.stage at hr
    cases h1 : (s.index "type").isString with
    | false => rw [assertString_error_of_not_isString _ h1, bind_error] at hr; cases hr
    | true =>
      rw [assertString_of_isString _ h1, bind_ok] at hr
      cases h2 : (s.index "refId").isString with
      | false => rw [assertString_error_of_not_isString _ h2, bind_error] at hr; cases hr
      | true =>
        cases h3 : (s.index "name").isString with
        | true => simp [hasRequiredFields, h1, h2, h3] at h
        | false =>
          rw [assertString_of_isString _ h2, bind_ok, bind_ok] at hr
          cases h4 : convertToStringSlice (s.index "requisiteStageRefIds") with
          | error e' => rw [h4, bind_error] at hr; cases hr
          | ok reqs =>
            rw [h4, bind_ok] at hr
            cases h5 : buildDependsOn stages reqs with
            | error e' => rw [h5, bind_error] at hr; cases hr
            | ok deps =>
              rw [h5, bind_ok, assertString_error_of_not_isString _ h3, bind_error] at hr
              cases hr

theorem convertStages_loop_ok (stages xs : List GoMap) (l : List PipelineTemplateStage)
    (h : ∀ t ∈ stages, hasRequiredFields t = true) (hx : ∀ s ∈ xs, wellFormedStage s = true) :
    convertStages.loop stages xs l = .ok (l ++ xs.map (stageOf stages)) := by
  induction xs generalizing l with
  | nil => simp [convertStages.loop]
  | cons s rest ih =>
    rw [convertStages.loop, convertStages.stage_ok stages s h (hx s (List.mem_cons_self _ _)),
      bind_ok, ih _ (fun t ht => hx t (List.mem_cons_of_mem _ ht))]
    simp

theorem convertStages_loop_error (stages xs : List GoMap) (l : List PipelineTemplateStage)
    (h : ∃ s ∈ xs, hasRequiredFields s = false) :
    ∃ e, convertStages.loop stages xs l = .error e ∧ e.isTypeAssertion = true := by
  induction xs generalizing l with
  | nil => obtain ⟨s, hs, _⟩ := h; simp at hs
  | cons x rest ih =>
    rw [convertStages.loop]
    cases hx : convertStages.stage stages x with
    | error e =>
      exact ⟨e, by rw [bind_error], convertStages.stage_error_kind _ _ _ hx⟩
    | ok o =>
      rw [bind_ok]
      apply ih
      obtain ⟨s, hs, hbad⟩ := h
      rcases List.mem_cons.mp hs with rfl | hs'
      · obtain ⟨e, he⟩ := convertStages.stage_error_of_malformed stages s hbad
        rw [he] at hx
        cases hx
      · exact ⟨s, hs', hbad⟩

theorem convertStages_ok (stages : List GoMap) (h : ∀ s ∈ stages, wellFormedStage s = true) :
    convertStages stages = .ok (stages.map (stageOf stages)) := by
  rw [convertStages, convertStages_loop_ok stages stages []
    (fun t ht => wellFormedStage_required t (h t ht)) h]
  simp

theorem matchingStages_eq_find (stages : List GoMap) (r : String) (h : distinctRefIds stages) :
    matchingStages stages r =
      (stages.find? (fun t => decide (t.index "refId" = .str r))).toList := by
  unfold distinctRefIds at h
  induction stages with
  | nil => rfl
  | cons s rest ih =>
    rw [List.pairwise_cons] at h
    by_cases hs : s.index "refId" = .str r
    · have hnone : matchingStages rest r = [] := by
        unfold matchingStages
        rw [List.filter_eq_nil_iff]
        intro t ht
        simp only [decide_eq_true_eq]
        intro hteq
        exact h.1 t ht (hs.trans hteq.symm)
      have e1 : matchingStages (s :: rest) r = s :: matchingStages rest r := by
        simp [matchingStages, hs]
      rw [e1, hnone]
      simp [List.find?, hs]
    · have e1 : matchingStages (s :: rest) r = matchingStages rest r := by
        simp [matchingStages, hs]
      rw [e1, ih h.2]
      simp [List.find?, hs]

theorem resolvedDependsOn_eq_spec (stages : List GoMap) (refs : List String)
    (h : distinctRefIds stages) :
    resolvedDependsOn stages refs = specDependsOn stages refs := by
  unfold resolvedDependsOn specDependsOn
  congr 1
  funext r
  rw [matchingStages_eq_find stages r h]
  cases stages.find? (fun t => decide (t.index "refId" = .str r)) <;> rfl

theorem requisites_of_absent (s : GoMap) (h : s.lookup "requisiteStageRefIds" = none) :
    requisites s = [] := by
  simp [requisites, GoMap.index, h]

theorem getElem?_map_stageOf (stages xs : List GoMap) (i : Nat) (s : GoMap)
    (h : xs[i]? = some s) : (xs.map (stageOf stages))[i]? = some (stageOf stages s) := by
  rw [List.getElem?_map, h]
  rfl

theorem GoMap.assign_ok (m : GoMap) (k : String) (v : Value) (h : m ≠ none) :
    m.assign k v = .ok (m.map (Fields.set k v)) := by
  cases m with
  | none => exact absurd rfl h
  | some fs => rfl

theorem GoMap.lookup_map_set (m : GoMap) (k k' : String) (v : Value) (h : m ≠ none) :
    GoMap.lookup (m.map (Fields.set k v)) k' = if k' = k then some v else m.lookup k' := by
  cases m with
  | none => exact absurd rfl h
  | some fs => exact Fields.get?_set k k' v fs

theorem convertTriggers_loop_ok (i : Nat) (ts l : List GoMap) (h : ∀ t ∈ ts, t ≠ none) :
    convertTriggers.loop i ts l =
      .ok (l ++ (ts.enumFrom i).map (fun p => namedTrigger p.1 p.2)) := by
  induction ts generalizing i l with
  | nil => simp [convertTriggers.loop]
  | cons t rest ih =>
    rw [convertTriggers.loop, GoMap.assign_ok t _ _ (h t (List.mem_cons_self _ _)), bind_ok,
      ih _ _ (fun x hx => h x (List.mem_cons_of_mem _ hx))]
    simp [List.enumFrom_cons, namedTrigger]

theorem convertTriggers_ok (ts : List GoMap) (h : ∀ t ∈ ts, t ≠ none) :
    convertTriggers ts = .ok ((ts.enumFrom 0).map (fun p => namedTrigger p.1 p.2)) := by
  rw [convertTriggers, convertTriggers_loop_ok 0 ts [] h]
  simp

theorem GoMap.assign_congr (a b : GoMap) (k : String) (v : Value)
    (h : a.delete k = b.delete k) : a.assign k v = b.assign k v := by
  cases a with
  | none =>
    cases b with
    | none => rfl
    | some fb => simp [GoMap.delete] at h
  | some fa =>
    cases b with
    | none => simp [GoMap.delete] at h
    | some fb =>
      simp only [GoMap.delete, Option.some.injEq] at h
      simp only [GoMap.assign, Fields.set, h]

theorem convertTriggers_loop_congr (i : Nat) (ts ts' l : List GoMap)
    (h : List.Forall₂ (fun a b => a.delete "name" = b.delete "name") ts ts') :
    convertTriggers.loop i ts l = convertTriggers.loop i ts' l := by
  induction h generalizing i l with
  | nil => rfl
  | cons hab _ ih =>
    rw [convertTriggers.loop, convertTriggers.loop, GoMap.assign_congr _ _ _ _ hab]
    cases GoMap.assign _ "name" (.str ("unnamed" ++ fmtD i)) with
    | error e => rfl
    | ok t' => rw [bind_ok, bind_ok, ih]

theorem convertNotifications_loop_ok (badVerb : Value → String) (i : Nat) (ns l : List GoMap)
    (h : ∀ n ∈ ns, n ≠ none) :
    convertNotifications.loop badVerb i ns l =
      .ok (l ++ (ns.enumFrom i).map (fun p => namedNotification badVerb p.1 p.2)) := by
  induction ns generalizing i l with
  | nil => simp [convertNotifications.loop]
  | cons n rest ih =>
    rw [convertNotifications.loop, GoMap.assign_ok n _ _ (h n (List.mem_cons_self _ _)),
      bind_ok, ih _ _ (fun x hx => h x (List.mem_cons_of_mem _ hx))]
    simp [List.enumFrom_cons, namedNotification]

theorem convertNotifications_ok (badVerb : Value → String) (ns : List GoMap)
    (h : ∀ n ∈ ns, n ≠ none) :
    convertNotifications badVerb ns =
      .ok ((ns.enumFrom 0).map (fun p => namedNotification badVerb p.1 p.2)) := by
  rw [convertNotifications, convertNotifications_loop_ok badVerb 0 ns [] h]
  simp

theorem getElem?_named {f : Nat → GoMap → GoMap} (xs : List GoMap) (i : Nat) (x : GoMap)
    (h : xs[i]? = some x) :
    ((xs.enumFrom 0).map (fun p => f p.1 p.2))[i]? = some (f i x) := by
  rw [List.getElem?_map, List.getElem?_enumFrom, h]
  simp

theorem convertPipelineToTemplate_ok (badVerb : Value → String) (pipelineConfig : PipelineConfig)
    (t : PipelineTemplate) (h : convertPipelineToTemplate badVerb pipelineConfig = .ok t) :
    ∃ triggers notifications stages,
      convertTriggers pipelineConfig.Triggers = .ok triggers ∧
      convertNotifications badVerb pipelineConfig.Notifications = .ok notifications ∧
      convertStages pipelineConfig.Stages = .ok stages ∧
      t = { Schema := "1"
            ID := createID pipelineConfig
            Metadata := {
              Name := pipelineConfig.Name
              Description :=
                if pipelineConfig.Description = "" then
                  "This template does not have a description"
                else pipelineConfig.Description
              Owner := pipelineConfig.LastModifiedBy
              Scopes := [pipelineConfig.Application] }
            Protect := false
            Configuration := {
              ConcurrentExecutions :=
                [("parallel", pipelineConfig.Parallel),
                 ("limitConcurrent", pipelineConfig.LimitConcurrent)]
              Triggers := triggers
              Parameters := pipelineConfig.Parameters
              Notifications := notifications
              ExpectedArtifacts := pipelineConfig.ExpectedArtifacts }
            Variables := []
            Stages := stages } := by
  unfold convertPipelineToTemplate at h
  cases h1 : convertTriggers pipelineConfig.Triggers with
  | error e => simp only [h1, bind_error] at h; cases h
  | ok triggers =>
    cases h2 : convertNotifications badVerb pipelineConfig.Notifications with
    | error e => simp only [h1, h2, bind_ok, bind_error] at h; cases h
    | ok notifications =>
      cases h3 : convertStages pipelineConfig.Stages with
      | error e => simp only [h1, h2, h3, bind_ok, bind_error] at h; cases h
      | ok stages =>
        simp only [h1, h2, h3, bind_ok] at h
        refine ⟨triggers, notifications, stages, rfl, rfl, rfl, ?_⟩
        cases h
        rfl

theorem convertPipelineToTemplate_error (badVerb : Value → String)
    (pipelineConfig : PipelineConfig) (e : Panic)
    (h : convertStages pipelineConfig.Stages = .error e) :
    ∃ e', convertPipelineToTemplate badVerb pipelineConfig = .error e' := by
  unfold convertPipelineToTemplate
  cases h1 : convertTriggers pipelineConfig.Triggers with
  | error e1 => exact ⟨e1, rfl⟩
  | ok triggers =>
    cases h2 : convertNotifications badVerb pipelineConfig.Notifications with
    | error e2 => exact ⟨e2, rfl⟩
    | ok notifications => exact ⟨e, by simp only [h, bind_ok, bind_error]⟩

theorem distinctRefIds_unique (stages : List GoMap) (h : distinctRefIds stages)
    (t t' : GoMap) (ht : t ∈ stages) (ht' : t' ∈ stages)
    (he : t.index "refId" = t'.index "refId") : t = t' := by
  unfold distinctRefIds at h
  induction stages with
  | nil => simp at ht
  | cons a rest ih =>
    rw [List.pairwise_cons] at h
    rcases List.mem_cons.mp ht with rfl | h1
    · rcases List.mem_cons.mp ht' with rfl | h2
      · rfl
      · exact absurd he (h.1 t' h2)
    · rcases List.mem_cons.mp ht' with rfl | h2
      · exact absurd he.symm (h.1 t h1)
      · exact ih h.2 h1 h2

theorem convertStages.stage_config (stages : List GoMap) (s : GoMap) (o : PipelineTemplateStage)
    (h : convertStages.stage stages s = .ok o) : o.Config = getStageConfig s := by
  unfold convertStages.stage at h
  cases h1 : assertString (s.index "type") with
  | error e' => rw [h1, bind_error] at h; cases h
  | ok ty =>
    rw [h1, bind_ok] at h
    cases h2 : assertString (s.index "refId") with
    | error e' => rw [h2, bind_error] at h; cases h
    | ok ref =>
      rw [h2, bind_ok, bind_ok] at h
      cases h3 : convertToStringSlice (s.index "requisiteStageRefIds") with
      | error e' => rw [h3, bind_error] at h; cases h
      | ok reqs =>
        rw [h3, bind_ok] at h
        cases h4 : buildDependsOn stages reqs with
        | error e' => rw [h4, bind_error] at h; cases h
        | ok deps =>
          rw [h4, bind_ok] at h
          cases h5 : assertString (s.index "name") with
          | error e' => rw [h5, bind_error] at h; cases h
          | ok nm => rw [h5, bind_ok] at h; cases h; rfl

theorem convertStages_loop_config (stages xs : List GoMap) (l out : List PipelineTemplateStage)
    (h : convertStages.loop stages xs l = .ok out) :
    ∀ o ∈ out, o ∈ l ∨ ∃ s ∈ xs, o.Config = getStageConfig s := by
  induction xs generalizing l with
  | nil =>
    simp only [convertStages.loop, Except.ok.injEq] at h
    subst h
    exact fun o ho => Or.inl ho
  | cons x rest ih =>
    rw [convertStages.loop] at h
    cases hx : convertStages.stage stages x with
    | error e => rw [hx, bind_error] at h; cases h
    | ok st =>
      rw [hx, bind_ok] at h
      intro o ho
      rcases ih _ h o ho with hl | ⟨s, hs, hc⟩
      · rcases List.mem_append.mp hl with h1 | h2
        · exact Or.inl h1
        · rw [List.mem_singleton] at h2
          subst h2
          exact Or.inr ⟨x, List.mem_cons_self _ _, convertStages.stage_config _ _ _ hx⟩
      · exact Or.inr ⟨s, List.mem_cons_of_mem _ hs, hc⟩

theorem isString_false_of_lookup (s : GoMap) (k : String)
    (h : ∀ x, s.lookup k ≠ some (.str x)) : (s.index k).isString = false := by
  unfold GoMap.index
  cases hl : s.lookup k with
  | none => rfl
  | some v =>
    cases v with
    | str x => exact absurd hl (h x)
    | null => rfl
    | bool b => rfl
    | num n => rfl
    | arr a => rfl
    | obj f => rfl

theorem hasRequiredFields_false (s : GoMap) (k : String) (hk : k ∈ ["type", "refId", "name"])
    (h : ∀ x, s.lookup k ≠ some (.str x)) : hasRequiredFields s = false := by
  have hf := isString_false_of_lookup s k h
  simp only [List.mem_cons, List.mem_singleton, List.not_mem_nil, or_false] at hk
  rcases hk with rfl | rfl | rfl <;> simp [hasRequiredFields, hf]

theorem mem_resolvedDependsOn (stages : List GoMap) (refs : List String) (d : String) :
    d ∈ resolvedDependsOn stages refs ↔
      ∃ r ∈ refs, ∃ t ∈ stages, t.index "refId" = .str r ∧ d = stageType t ++ stageRefId t := by
  simp only [resolvedDependsOn, matchingStages, List.mem_flatMap, List.mem_map, List.mem_filter,
    decide_eq_true_eq]
  constructor
  · rintro ⟨r, hr, t, ⟨ht, he⟩, hd⟩
    exact ⟨r, hr, t, ht, he, hd.symm⟩
  · rintro ⟨r, hr, t, ht, he, hd⟩
    exact ⟨r, hr, t, ⟨ht, he⟩, hd.symm⟩

theorem matchingStages_dangling (stages : List GoMap) (r : String)
    (h : isResolved stages r = false) : matchingStages stages r = [] := by
  unfold matchingStages
  rw [List.filter_eq_nil_iff]
  intro t ht hp
  have : isResolved stages r = true := List.any_eq_true.mpr ⟨t, ht, hp⟩
  rw [h] at this
  cases this

theorem resolvedDependsOn_filter (stages : List GoMap) (refs : List String) :
    resolvedDependsOn stages (refs.filter (isResolved stages)) = resolvedDependsOn stages refs := by
  induction refs with
  | nil => rfl
  | cons r rest ih =>
    unfold resolvedDependsOn at ih ⊢
    cases hr : isResolved stages r with
    | true =>
      rw [List.filter_cons_of_pos hr, List.flatMap_cons, List.flatMap_cons, ih]
    | false =>
      have hneg : ¬ isResolved stages r = true := by rw [hr]; simp
      rw [List.filter_cons_of_neg hneg, List.flatMap_cons, ih, matchingStages_dangling stages r hr]
      rfl

theorem resolvedDependsOn_nodup (stages : List GoMap) (refs : List String)
    (hrefs : refs.Nodup)
    (hids : (stages.map (fun t => stageType t ++ stageRefId t)).Nodup) :
    (resolvedDependsOn stages refs).Nodup := by
  unfold resolvedDependsOn
  rw [List.nodup_flatMap]
  constructor
  · intro r _
    exact List.Nodup.sublist ((List.filter_sublist stages).map _) hids
  · refine List.Pairwise.imp_of_mem ?_ hrefs
    intro r r' _ _ hne d hd hd'
    simp only [matchingStages, List.mem_map, List.mem_filter, decide_eq_true_eq] at hd hd'
    obtain ⟨t, ⟨ht, he⟩, hdt⟩ := hd
    obtain ⟨t', ⟨ht', he'⟩, hdt'⟩ := hd'
    have htt : t = t' := List.inj_on_of_nodup_map hids ht ht' (hdt.trans hdt'.symm)
    subst htt
    rw [he] at he'
    exact hne (Value.str.inj he')

theorem convertTriggers_loop_error_kind (i : Nat) (ts l : List GoMap) (e : Panic)
    (h : convertTriggers.loop i ts l = .error e) : e = .nilMapAssign := by
  induction ts generalizing i l with
  | nil => simp [convertTriggers.loop] at h
  | cons t rest ih =>
    rw [convertTriggers.loop] at h
    cases t with
    | none =>
      simp only [GoMap.assign, bind_error, Except.error.injEq] at h
      exact h.symm
    | some fs =>
      simp only [GoMap.assign, bind_ok] at h
      exact ih _ _ h

theorem convertNotifications_loop_error_kind (badVerb : Value → String) (i : Nat)
    (ns l : List GoMap) (e : Panic)
    (h : convertNotifications.loop badVerb i ns l = .error e) : e = .nilMapAssign := by
  induction ns generalizing i l with
  | nil => simp [convertNotifications.loop] at h
  | cons n rest ih =>
    rw [convertNotifications.loop] at h
    cases n with
    | none =>
      simp only [GoMap.assign, bind_error, Except.error.injEq] at h
      exact h.symm
    | some fs =>
      simp only [GoMap.assign, bind_ok] at h
      exact ih _ _ h

theorem convertPipelineToTemplate_isOk (badVerb : Value → String)
    (pipelineConfig : PipelineConfig) (triggers notifications : List GoMap)
    (stages : List PipelineTemplateStage)
    (h1 : convertTriggers pipelineConfig.Triggers = .ok triggers)
    (h2 : convertNotifications badVerb pipelineConfig.Notifications = .ok notifications)
    (h3 : convertStages pipelineConfig.Stages = .ok stages) :
    ∃ t, convertPipelineToTemplate badVerb pipelineConfig = .ok t := by
  unfold convertPipelineToTemplate
  simp only [h1, h2, h3, bind_ok]
  exact ⟨_, rfl⟩

theorem convertPipelineToTemplate_error_kind (badVerb : Value → String)
    (pipelineConfig : PipelineConfig) (stages : List PipelineTemplateStage)
    (h3 : convertStages pipelineConfig.Stages = .ok stages) (e : Panic)
    (h : convertPipelineToTemplate badVerb pipelineConfig = .error e) : e = .nilMapAssign := by
  unfold convertPipelineToTemplate at h
  cases h1 : convertTriggers pipelineConfig.Triggers with
  | error e1 =>
    simp only [h1, bind_error, Except.error.injEq] at h
    subst h
    exact convertTriggers_loop_error_kind 0 _ [] _ h1
  | ok triggers =>
    cases h2 : convertNotifications badVerb pipelineConfig.Notifications with
    | error e2 =>
      simp only [h1, h2, bind_ok, bind_error, Except.error.injEq] at h
      subst h
      exact convertNotifications_loop_error_kind badVerb 0 _ [] _ h2
    | ok notifications =>
      simp only [h1, h2, h3, bind_ok] at h
      cases h

theorem bindR_ok {α β : Type} (a : α) (f : α → Except RuntimePanic β) :
    (Except.ok a >>= f) = f a := rfl

theorem Header.Values_Add_same (h : Header) (key value : String) :
    (h.Add key value).Values key = h.Values key ++ [value] := by
  induction h with
  | nil => simp [Header.Add, Header.Values]
  | cons e rest ih =>
    obtain ⟨k, vs⟩ := e
    by_cases hk : k = key
    · simp [Header.Add, Header.Values, hk]
    · simp [Header.Add, Header.Values, hk, ih]

theorem Header.Values_Add_other (h : Header) (key value k' : String) (hne : k' ≠ key) :
    (h.Add key value).Values k' = h.Values k' := by
  induction h with
  | nil =>
    have : ¬ key = k' := fun e => hne e.symm
    simp [Header.Add, Header.Values, this]
  | cons e rest ih =>
    obtain ⟨k, vs⟩ := e
    by_cases hk : k = key
    · subst hk
      have : ¬ k = k' := fun e => hne e.symm
      simp [Header.Add, Header.Values, this]
    · by_cases hk' : k = k'
      · subst hk'
        simp [Header.Add, Header.Values, hk]
      · simp [Header.Add, Header.Values, hk, hk', ih]

theorem goBytes_empty : goBytes "" = [] := rfl

theorem client_Do_of_bytes (httpClientDo : Request → Option Response × Option Error)
    (accessToken : String) (req : Request) (b0 b1 : Nat) (rest : List Nat)
    (h : goBytes accessToken = b0 :: b1 :: rest) :
    client.Do httpClientDo accessToken req =
      .ok (httpClientDo { req with Header := (req.Header.Add "Authorization"
        (if b0 = 'e'.toNat ∧ b1 = 'y'.toNat then "Bearer " ++ accessToken
         else "Basic " ++ accessToken)) }) := by
  have hne : accessToken ≠ "" := by
    intro he
    rw [he, goBytes_empty] at h
    cases h
  have h0 : byteAt accessToken 0 = .ok b0 := by simp [byteAt, h]
  have h1 : byteAt accessToken 1 = .ok b1 := by simp [byteAt, h]
  unfold client.Do
  rw [if_pos hne, h0]
  simp only [bindR_ok]
  by_cases e0 : b0 = 'e'.toNat
  · rw [if_pos e0, h1]
    by_cases e1 : b1 = 'y'.toNat
    · have hd : decide (b1 = 'y'.toNat) = true := decide_eq_true e1
      rw [if_pos ⟨e0, e1⟩]
      simp only [bindR_ok, hd]
      rfl
    · have hd : decide (b1 = 'y'.toNat) = false := decide_eq_false e1
      rw [if_neg (fun hc => e1 hc.2)]
      simp only [bindR_ok, hd]
      rfl
  · rw [if_neg e0, if_neg (fun hc => e0 hc.1)]
    rfl

theorem Store.length_update (σ : Store) (a : Nat) (f : Fields → Fields) :
    (Store.update σ a f).length = σ.length := by
  unfold Store.update
  cases σ[a]? with
  | none => rfl
  | some fs => exact List.length_set _ _ _

theorem Store.getElem?_update (σ : Store) (a b : Nat) (f : Fields → Fields) :
    (Store.update σ a f)[b]? = if a = b then (σ[b]?).map f else σ[b]? := by
  unfold Store.update
  cases h : σ[a]? with
  | none =>
    by_cases hab : a = b
    · subst hab
      simp [h]
    · simp [hab]
  | some fs =>
    have hlt : a < σ.length := by
      rcases List.getElem?_eq_some.mp h with ⟨hlt, _⟩
      exact hlt
    show (σ.set a (f fs))[b]? = _
    rw [List.getElem?_set]
    by_cases hab : a = b
    · subst hab
      simp [h, hlt]
    · simp [hab]

theorem Store.getElem?_update_ne (σ : Store) (a b : Nat) (f : Fields → Fields) (h : a ≠ b) :
    (Store.update σ a f)[b]? = σ[b]? := by
  rw [Store.getElem?_update, if_neg h]

theorem Store.getElem?_update_self (σ : Store) (a : Nat) (f : Fields → Fields) :
    (Store.update σ a f)[a]? = (σ[a]?).map f := by
  rw [Store.getElem?_update, if_pos rfl]

theorem Store.assign_eq (σ σ' : Store) (r : Ref) (k : String) (v : Value)
    (h : Store.assign σ r k v = .ok σ') :
    ∃ a, r = some a ∧ a < σ.length ∧ σ' = Store.update σ a (Fields.set k v) := by
  cases r with
  | none => simp [Store.assign] at h
  | some a =>
    by_cases hlt : a < σ.length
    · simp only [Store.assign, if_pos hlt, Except.ok.injEq] at h
      exact ⟨a, rfl, hlt, h.symm⟩
    · simp [Store.assign, hlt] at h

theorem Store.assign_of_holds (σ : Store) (r : Ref) (k : String) (v : Value)
    (h : Store.holds σ r = true) :
    ∃ a, r = some a ∧ Store.assign σ r k v = .ok (Store.update σ a (Fields.set k v)) := by
  cases r with
  | none => simp [Store.holds] at h
  | some a =>
    simp only [Store.holds, decide_eq_true_eq] at h
    exact ⟨a, rfl, by simp [Store.assign, h]⟩

theorem Store.holds_update (σ : Store) (a : Nat) (f : Fields → Fields) (r : Ref) :
    Store.holds (Store.update σ a f) r = Store.holds σ r := by
  cases r with
  | none => rfl
  | some b => simp [Store.holds, Store.length_update]

theorem assignNames_frame (mk : Nat → GoMap → Value) (i : Nat) (ts l l' : List Ref)
    (σ σ' : Store) (h : assignNames mk i ts l σ = .ok (σ', l')) :
    l' = l ++ ts ∧ σ'.length = σ.length ∧ ∀ a, some a ∉ ts → σ'[a]? = σ[a]? := by
  induction ts generalizing i l σ with
  | nil =>
    simp only [assignNames, Except.ok.injEq, Prod.mk.injEq] at h
    obtain ⟨rfl, rfl⟩ := h
    exact ⟨by simp, rfl, fun _ _ => rfl⟩
  | cons t rest ih =>
    rw [assignNames] at h
    cases ha : Store.assign σ t "name" (mk i (Store.deref σ t)) with
    | error e => rw [ha, bind_error] at h; cases h
    | ok σ1 =>
      rw [ha, bind_ok] at h
      obtain ⟨a0, rfl, _, rfl⟩ := Store.assign_eq _ _ _ _ _ ha
      obtain ⟨hl, hlen, hframe⟩ := ih _ _ _ h
      refine ⟨by rw [hl]; simp, by rw [hlen, Store.length_update], ?_⟩
      intro a hmem
      have hne : a0 ≠ a := fun e => hmem (by rw [e]; exact List.mem_cons_self _ _)
      rw [hframe a (fun hm => hmem (List.mem_cons_of_mem _ hm)),
        Store.getElem?_update_ne _ _ _ _ hne]

theorem assignNames_content (mk : Nat → GoMap → Value) (i : Nat) (ts l l' : List Ref)
    (σ σ' : Store) (hnd : ts.Nodup) (h : assignNames mk i ts l σ = .ok (σ', l')) :
    ∀ (j : Nat) (t : Ref), ts[j]? = some t →
      Store.deref σ' t =
        (Store.deref σ t).map (Fields.set "name" (mk (i + j) (Store.deref σ t))) := by
  induction ts generalizing i l σ with
  | nil => intro j t hj; simp at hj
  | cons t0 rest ih =>
    rw [assignNames] at h
    rw [List.nodup_cons] at hnd
    cases ha : Store.assign σ t0 "name" (mk i (Store.deref σ t0)) with
    | error e => rw [ha, bind_error] at h; cases h
    | ok σ1 =>
      rw [ha, bind_ok] at h
      obtain ⟨a0, rfl, _, rfl⟩ := Store.assign_eq _ _ _ _ _ ha
      intro j t hj
      cases j with
      | zero =>
        simp only [List.getElem?_cons_zero, Option.some.injEq] at hj
        subst hj
        obtain ⟨_, _, hframe⟩ := assignNames_frame mk _ _ _ _ _ _ h
        show σ'[a0]? = _
        rw [hframe a0 hnd.1, Store.getElem?_update_self]
        rfl
      | succ j =>
        simp only [List.getElem?_cons_succ] at hj
        have hmem : t ∈ rest := List.getElem?_mem hj
        have hkeep : Store.deref (Store.update σ a0
            (Fields.set "name" (mk i (Store.deref σ (some a0))))) t = Store.deref σ t := by
          cases t with
          | none => rfl
          | some a =>
            have hne : a0 ≠ a := fun e => hnd.1 (by rw [e]; exact hmem)
            exact Store.getElem?_update_ne _ _ _ _ hne
        have := ih (i + 1) _ _ hnd.2 h j t hj
        rw [this, hkeep]
        have harith : i + 1 + j = i + (j + 1) := by omega
        rw [harith]

theorem assignNames_ok (mk : Nat → GoMap → Value) (i : Nat) (ts l : List Ref) (σ : Store)
    (hv : ∀ t ∈ ts, Store.holds σ t = true) :
    ∃ σ', assignNames mk i ts l σ = .ok (σ', l ++ ts) := by
  induction ts generalizing i l σ with
  | nil => exact ⟨σ, by simp [assignNames]⟩
  | cons t rest ih =>
    obtain ⟨a, rfl, ha⟩ := Store.assign_of_holds σ t "name" (mk i (Store.deref σ t))
      (hv t (List.mem_cons_self _ _))
    obtain ⟨σ', hσ'⟩ := ih (i + 1) (l ++ [some a]) (Store.update σ a
      (Fields.set "name" (mk i (Store.deref σ (some a)))))
      (fun x hx => by rw [Store.holds_update]; exact hv x (List.mem_cons_of_mem _ hx))
    refine ⟨σ', ?_⟩
    rw [assignNames, ha, bind_ok, hσ']
    simp

theorem convertTriggersSt_loop_eq (i : Nat) (ts l : List Ref) (σ : Store) :
    convertTriggersSt.loop i ts l σ =
      assignNames (fun i _ => .str ("unnamed" ++ fmtD i)) i ts l σ := by
  induction ts generalizing i l σ with
  | nil => rfl
  | cons t rest ih =>
    rw [convertTriggersSt.loop, assignNames]
    cases Store.assign σ t "name" (.str ("unnamed" ++ fmtD i)) with
    | error e => rfl
    | ok σ1 => rw [bind_ok, bind_ok, ih]

theorem convertNotificationsSt_loop_eq (badVerb : Value → String) (i : Nat)
    (ns l : List Ref) (σ : Store) :
    convertNotificationsSt.loop badVerb i ns l σ =
      assignNames (fun i m => .str (fmtS badVerb (m.index "type") ++ fmtD i)) i ns l σ := by
  induction ns generalizing i l σ with
  | nil => rfl
  | cons n rest ih =>
    rw [convertNotificationsSt.loop, assignNames]
    cases Store.assign σ n "name"
        (.str (fmtS badVerb ((Store.deref σ n).index "type") ++ fmtD i)) with
    | error e => rfl
    | ok σ1 => rw [bind_ok, bind_ok, ih]

theorem Store.length_foldr_update (a : Nat) (es : Fields) (σ : Store) :
    (es.foldr (fun e τ => Store.update τ a (Fields.set e.1 e.2)) σ).length = σ.length := by
  induction es with
  | nil => rfl
  | cons e rest ih => rw [List.foldr_cons, Store.length_update, ih]

theorem Store.getElem?_foldr_update_ne (a b : Nat) (es : Fields) (σ : Store) (h : a ≠ b) :
    (es.foldr (fun e τ => Store.update τ a (Fields.set e.1 e.2)) σ)[b]? = σ[b]? := by
  induction es with
  | nil => rfl
  | cons e rest ih => rw [List.foldr_cons, Store.getElem?_update_ne _ _ _ _ h, ih]

theorem Store.getElem?_foldr_update_self (a : Nat) (es : Fields) (σ : Store) :
    (es.foldr (fun e τ => Store.update τ a (Fields.set e.1 e.2)) σ)[a]? =
      (σ[a]?).map (fun fs => es.foldr (fun e c => Fields.set e.1 e.2 c) fs) := by
  induction es with
  | nil => simp
  | cons e rest ih =>
    rw [List.foldr_cons, Store.getElem?_update_self, ih]
    cases σ[a]? <;> rfl

theorem getStageConfigSt_eq (σ : Store) (s : Ref) :
    getStageConfigSt σ s =
      (Store.update (Store.update (Store.update (Store.update
        ((Store.deref (σ ++ [[]]) s).entries.foldr
          (fun e τ => Store.update τ σ.length (Fields.set e.1 e.2)) (σ ++ [[]]))
        σ.length (Fields.delete "type")) σ.length (Fields.delete "name"))
        σ.length (Fields.delete "refId")) σ.length (Fields.delete "requisiteStageRefIds"),
       some σ.length) := rfl

theorem getStageConfigSt_frame (σ : Store) (s : Ref) :
    (getStageConfigSt σ s).2 = some σ.length ∧
      (getStageConfigSt σ s).1.length = σ.length + 1 ∧
      ∀ b, b < σ.length → (getStageConfigSt σ s).1[b]? = σ[b]? := by
  rw [getStageConfigSt_eq]
  refine ⟨rfl, ?_, ?_⟩
  · simp only [Store.length_update, Store.length_foldr_update, List.length_append,
      List.length_singleton]
  · intro b hb
    have hne : σ.length ≠ b := by omega
    simp only [Store.getElem?_update_ne _ _ _ _ hne, Store.getElem?_foldr_update_ne _ _ _ _ hne]
    exact List.getElem?_append_left hb

theorem Store.deref_append_of_holds (σ τ : Store) (s : Ref)
    (h : Store.holds σ s = true ∨ s = none) : Store.deref (σ ++ τ) s = Store.deref σ s := by
  cases s with
  | none => rfl
  | some a =>
    rcases h with h | h
    · simp only [Store.holds, decide_eq_true_eq] at h
      exact List.getElem?_append_left h
    · cases h

theorem getStageConfigSt_content (σ : Store) (s : Ref)
    (h : Store.holds σ s = true ∨ s = none) :
    Store.deref (getStageConfigSt σ s).1 (getStageConfigSt σ s).2 =
      getStageConfig (Store.deref σ s) := by
  rw [getStageConfigSt_eq, getStageConfig_eq, Store.deref_append_of_holds σ _ s h]
  show (Store.update _ σ.length _)[σ.length]? = _
  simp only [Store.getElem?_update_self, Store.getElem?_foldr_update_self]
  have hnew : (σ ++ [[]])[σ.length]? = some ([] : Fields) := by simp
  rw [hnew]
  rfl

theorem convertStagesSt_stage_store (σ σ' : Store) (stages : List Ref) (s : Ref)
    (o : PipelineTemplateStageSt) (h : convertStagesSt.stage σ stages s = .ok (σ', o)) :
    σ' = (getStageConfigSt σ s).1 ∧ o.Config = (getStageConfigSt σ s).2 := by
  unfold convertStagesSt.stage at h
  cases h1 : assertString ((Store.deref σ s).index "type") with
  | error e' => rw [h1, bind_error] at h; cases h
  | ok ty =>
    rw [h1, bind_ok] at h
    cases h2 : assertString ((Store.deref σ s).index "refId") with
    | error e' => rw [h2, bind_error] at h; cases h
    | ok ref =>
      rw [h2, bind_ok, bind_ok] at h
      cases h3 : convertToStringSlice ((Store.deref σ s).index "requisiteStageRefIds") with
      | error e' => rw [h3, bind_error] at h; cases h
      | ok reqs =>
        rw [h3, bind_ok] at h
        cases h4 : buildDependsOn (stages.map (Store.deref σ)) reqs with
        | error e' => rw [h4, bind_error] at h; cases h
        | ok deps =>
          rw [h4, bind_ok] at h
          cases h5 : assertString ((Store.deref σ s).index "name") with
          | error e' => rw [h5, bind_error] at h; cases h
          | ok nm =>
            rw [h5, bind_ok] at h
            cases h
            exact ⟨rfl, rfl⟩

theorem convertStagesSt_loop_frame (stages xs : List Ref) (l out : List PipelineTemplateStageSt)
    (σ σ' : Store) (h : convertStagesSt.loop stages xs l σ = .ok (σ', out)) :
    σ.length ≤ σ'.length ∧ ∀ b, b < σ.length → σ'[b]? = σ[b]? := by
  induction xs generalizing l σ with
  | nil =>
    simp only [convertStagesSt.loop, Except.ok.injEq, Prod.mk.injEq] at h
    obtain ⟨rfl, _⟩ := h
    exact ⟨Nat.le_refl _, fun _ _ => rfl⟩
  | cons x rest ih =>
    rw [convertStagesSt.loop] at h
    cases hx : convertStagesSt.stage σ stages x with
    | error e => rw [hx, bind_error] at h; cases h
    | ok p =>
      obtain ⟨σ1, st⟩ := p
      rw [hx, bind_ok] at h
      obtain ⟨rfl, _⟩ := convertStagesSt_stage_store _ _ _ _ _ hx
      obtain ⟨_, hlen, hframe⟩ := getStageConfigSt_frame σ x
      obtain ⟨hle, hrest⟩ := ih _ _ h
      refine ⟨by omega, ?_⟩
      intro b hb
      rw [hrest b (by omega), hframe b hb]

theorem convertPipelineToTemplateSt_frame (badVerb : Value → String) (σ σ' : Store)
    (pipelineConfig : PipelineConfigSt) (t : PipelineTemplateSt)
    (h : convertPipelineToTemplateSt badVerb σ pipelineConfig = .ok (σ', t)) :
    t.Configuration.Triggers = pipelineConfig.Triggers ∧
      t.Configuration.Notifications = pipelineConfig.Notifications ∧
      σ.length ≤ σ'.length ∧
      ∀ a, a < σ.length → some a ∉ pipelineConfig.Triggers →
        some a ∉ pipelineConfig.Notifications → σ'[a]? = σ[a]? := by
  unfold convertPipelineToTemplateSt at h
  cases h1 : convertTriggersSt σ pipelineConfig.Triggers with
  | error e => simp only [h1, bind_error] at h; cases h
  | ok p1 =>
    obtain ⟨σ1, triggers⟩ := p1
    cases h2 : convertNotificationsSt badVerb σ1 pipelineConfig.Notifications with
    | error e => simp only [h1, h2, bind_ok, bind_error] at h; cases h
    | ok p2 =>
      obtain ⟨σ2, notifications⟩ := p2
      cases h3 : convertStagesSt σ2 pipelineConfig.Stages with
      | error e => simp only [h1, h2, h3, bind_ok, bind_error] at h; cases h
      | ok p3 =>
        obtain ⟨σ3, stages⟩ := p3
        simp only [h1, h2, h3, bind_ok] at h
        cases h
        rw [convertTriggersSt, convertTriggersSt_loop_eq] at h1
        rw [convertNotificationsSt, convertNotificationsSt_loop_eq] at h2
        obtain ⟨hl1, hlen1, hf1⟩ := assignNames_frame _ _ _ _ _ _ _ h1
        obtain ⟨hl2, hlen2, hf2⟩ := assignNames_frame _ _ _ _ _ _ _ h2
        obtain ⟨hle3, hf3⟩ := convertStagesSt_loop_frame _ _ _ _ _ _ h3
        refine ⟨by simpa using hl1, by simpa using hl2, by omega, ?_⟩
        intro a ha hnt hnn
        rw [hf3 a (by omega), hf2 a hnn, hf1 a hnt]

/-! ## Properties of the conversion -/

/-- C1, dependency fidelity. For a well-formed stage list with pairwise distinct
refIds, conversion succeeds and the dependsOn of the output stage at each index
is the list the specification describes for the input stage at that index: its
references walked in order, each giving the ID (type followed by refId) of the
stage that has the reference as refId, or nothing when no stage has. That stage
is unique, and an absent requisiteStageRefIds gives an empty dependsOn. -/
theorem dependsOn_fidelity (stages : List GoMap)
    (hwf : ∀ s ∈ stages, wellFormedStage s = true) (hd : distinctRefIds stages) :
    ∃ out, convertStages stages = .ok out ∧ out.length = stages.length ∧
      (∀ (i : Nat) (s : GoMap), stages[i]? = some s →
        ∃ o : PipelineTemplateStage, out[i]? = some o ∧
          o.DependsOn = specDependsOn stages (requisites s) ∧
          (s.lookup "requisiteStageRefIds" = none → o.DependsOn = [])) ∧
      (∀ t ∈ stages, ∀ t' ∈ stages, t.index "refId" = t'.index "refId" → t = t') := by
  refine ⟨stages.map (stageOf stages), convertStages_ok stages hwf, by simp, ?_, ?_⟩
  · intro i s hs
    refine ⟨stageOf stages s, getElem?_map_stageOf stages stages i s hs, ?_, ?_⟩
    · exact resolvedDependsOn_eq_spec stages _ hd
    · intro habs
      show resolvedDependsOn stages (requisites s) = []
      rw [requisites_of_absent s habs]
      rfl
  · exact fun t ht t' ht' he => distinctRefIds_unique stages hd t t' ht ht' he

/-- Scenario B: the second stage depends on the first one, through its ID. -/
theorem dependsOn_fidelity_witness :
    (convertStages scenarioBStages).map (fun l => l.map PipelineTemplateStage.DependsOn)
        = .ok [[], ["bake1"]] ∧
      ∃ out, convertStages scenarioBStages = .ok out ∧ out.length = scenarioBStages.length ∧
        (∀ (i : Nat) (s : GoMap), scenarioBStages[i]? = some s →
          ∃ o : PipelineTemplateStage, out[i]? = some o ∧
            o.DependsOn = specDependsOn scenarioBStages (requisites s) ∧
            (s.lookup "requisiteStageRefIds" = none → o.DependsOn = [])) ∧
        (∀ t ∈ scenarioBStages, ∀ t' ∈ scenarioBStages,
          t.index "refId" = t'.index "refId" → t = t') :=
  ⟨by decide, dependsOn_fidelity scenarioBStages (by decide) (by decide)⟩

/-- C2, contract violation. When some stage of the pipeline lacks one of type,
refId and name, or holds something that is not a string there, convertStages
fails with the panic of a failed type assertion, wherever the stage sits and
whatever the other stages hold, and convertPipelineToTemplate fails as well: no
template is returned. -/
theorem malformed_stage_fails (badVerb : Value → String) (pipelineConfig : PipelineConfig)
    (s : GoMap) (k : String) (hs : s ∈ pipelineConfig.Stages)
    (hk : k ∈ ["type", "refId", "name"]) (hbad : ∀ x, s.lookup k ≠ some (.str x)) :
    (∃ concrete asserted,
      convertStages pipelineConfig.Stages = .error (.typeAssertion concrete asserted)) ∧
    (∃ e, convertPipelineToTemplate badVerb pipelineConfig = .error e) := by
  obtain ⟨e, he, hkind⟩ := convertStages_loop_error pipelineConfig.Stages pipelineConfig.Stages []
    ⟨s, hs, hasRequiredFields_false s k hk hbad⟩
  constructor
  · cases e with
    | typeAssertion c a => exact ⟨c, a, he⟩
    | nilMapAssign => simp [Panic.isTypeAssertion] at hkind
  · exact convertPipelineToTemplate_error badVerb pipelineConfig e he

/-- Scenario C: a single stage without a name. -/
theorem malformed_stage_fails_witness :
    convertStages [scenarioCStage] = .error (.typeAssertion "nil" "string") ∧
    (∃ concrete asserted,
      convertStages (pipelineOf "myapp" "Deploy App!" "" [scenarioCStage]).Stages
        = .error (.typeAssertion concrete asserted)) ∧
    (∃ e, convertPipelineToTemplate scenarioVerb
      (pipelineOf "myapp" "Deploy App!" "" [scenarioCStage]) = .error e) :=
  ⟨by decide,
   malformed_stage_fails scenarioVerb (pipelineOf "myapp" "Deploy App!" "" [scenarioCStage])
    scenarioCStage "name" (by decide) (by decide)
    (by intro x h; simp [scenarioCStage, GoMap.lookup, Fields.get?] at h)⟩

/-- C3, template ID. For every application and pipeline name, createID is the
application, a hyphen and the name with every character that is not a letter,
a digit or the underscore removed, the other characters kept in order; so the
part after the hyphen holds only letters, digits and underscores. Scenario A
gives myapp-DeployApp. -/
theorem createID_spec (pipelineConfig : PipelineConfig) :
    createID pipelineConfig =
        pipelineConfig.Application ++ "-" ++
          String.mk (pipelineConfig.Name.data.filter isWordChar) ∧
      (∀ c ∈ pipelineConfig.Name.data.filter isWordChar,
        c.isAlpha = true ∨ c.isDigit = true ∨ c = '_') ∧
      createID (pipelineOf "myapp" "Deploy App!" "" scenarioAStages) = "myapp-DeployApp" := by
  refine ⟨?_, ?_, by decide⟩
  · have hf : (fun c => !isNonWord c) = isWordChar := by
      funext c
      rw [isNonWord_eq, Bool.not_not]
    show pipelineConfig.Application ++ "-" ++
        String.mk (replaceAllClass.loop isNonWord [] pipelineConfig.Name.data []) = _
    rw [replaceAllClass.loop_nil, hf, List.nil_append]
  · intro c hc
    have hw : isWordChar c = true := (List.mem_filter.mp hc).2
    simpa [isWordChar, or_assoc] using hw

/-- C4, stage order and fields. For a well-formed stage list, convertStages
returns a list of the same length whose stage at each index is built from the
input stage at that index: the ID is the type followed by the refId, Type and
Name are the type and the name, and Config is getStageConfig of the input. -/
theorem convertStages_pointwise (stages : List GoMap)
    (hwf : ∀ s ∈ stages, wellFormedStage s = true) :
    ∃ out : List PipelineTemplateStage,
      convertStages stages = .ok out ∧ out.length = stages.length ∧
      ∀ (i : Nat) (s : GoMap), stages[i]? = some s →
        ∃ (o : PipelineTemplateStage) (ty ref nm : String),
          out[i]? = some o ∧
          s.lookup "type" = some (.str ty) ∧ s.lookup "refId" = some (.str ref) ∧
          s.lookup "name" = some (.str nm) ∧
          o.ID = ty ++ ref ∧ o.Type_ = ty ∧ o.Name = nm ∧ o.Config = getStageConfig s := by
  refine ⟨stages.map (stageOf stages), convertStages_ok stages hwf, by simp, ?_⟩
  intro i s hs
  have hmem : s ∈ stages := List.getElem?_mem hs
  have hr := wellFormedStage_required s (hwf s hmem)
  simp only [hasRequiredFields, Bool.and_eq_true] at hr
  exact ⟨stageOf stages s, stageType s, stageRefId s, stageName s,
    getElem?_map_stageOf stages stages i s hs,
    GoMap.lookup_of_index_isString s "type" hr.1.1,
    GoMap.lookup_of_index_isString s "refId" hr.1.2,
    GoMap.lookup_of_index_isString s "name" hr.2, rfl, rfl, rfl, rfl⟩

/-- Scenarios A and B: one stage gives one stage with ID deploy1, and two
stages keep their order. -/
theorem convertStages_pointwise_witness :
    (convertStages scenarioAStages).map (fun l => l.map PipelineTemplateStage.ID)
        = .ok ["deploy1"] ∧
      (convertStages scenarioBStages).map (fun l => l.map PipelineTemplateStage.ID)
        = .ok ["bake1", "deploy2"] ∧
      ∃ out : List PipelineTemplateStage,
        convertStages scenarioBStages = .ok out ∧ out.length = scenarioBStages.length ∧
        ∀ (i : Nat) (s : GoMap), scenarioBStages[i]? = some s →
          ∃ (o : PipelineTemplateStage) (ty ref nm : String),
            out[i]? = some o ∧
            s.lookup "type" = some (.str ty) ∧ s.lookup "refId" = some (.str ref) ∧
            s.lookup "name" = some (.str nm) ∧
            o.ID = ty ++ ref ∧ o.Type_ = ty ∧ o.Name = nm ∧ o.Config = getStageConfig s :=
  ⟨by decide, by decide, convertStages_pointwise scenarioBStages (by decide)⟩

/-- C5, config purity. For every raw stage record, getStageConfig holds none of
the keys type, name, refId and requisiteStageRefIds, and holds every other key
exactly when the record does, with the same value; so the Config of every stage
that convertStages returns is free of the four structural keys. -/
theorem getStageConfig_purity :
    (∀ (s : GoMap) (k : String), k ∈ structuralKeys → (getStageConfig s).lookup k = none) ∧
    (∀ (s : GoMap) (k : String), k ∉ structuralKeys →
      (getStageConfig s).lookup k = s.lookup k) ∧
    (∀ (stages : List GoMap) (out : List PipelineTemplateStage),
      convertStages stages = .ok out →
        ∀ o ∈ out, ∀ k ∈ structuralKeys, o.Config.lookup k = none) := by
  refine ⟨?_, ?_, ?_⟩
  · intro s k hk
    rw [getStageConfig_lookup, if_pos hk]
  · intro s k hk
    rw [getStageConfig_lookup, if_neg hk]
  · intro stages out h o ho k hk
    rcases convertStages_loop_config stages stages [] out h o ho with hnil | ⟨s, _, hc⟩
    · simp at hnil
    · rw [hc, getStageConfig_lookup, if_pos hk]

/-- The second stage of scenario B keeps its own key and loses the four. -/
theorem getStageConfig_purity_witness :
    (getStageConfig (some [("type", .str "deploy"), ("refId", .str "2"),
        ("account", .str "prod")])).lookup "refId" = none ∧
    (getStageConfig (some [("type", .str "deploy"), ("refId", .str "2"),
        ("account", .str "prod")])).lookup "account" = some (.str "prod") ∧
    (∀ o ∈ [stageOf scenarioBStages (some [("type", .str "bake"), ("refId", .str "1"),
              ("name", .str "Bake")]),
            stageOf scenarioBStages (some [("type", .str "deploy"), ("refId", .str "2"),
              ("name", .str "Deploy"), ("requisiteStageRefIds", .arr [.str "1"]),
              ("account", .str "prod")])],
      ∀ k ∈ structuralKeys, o.Config.lookup k = none) :=
  ⟨getStageConfig_purity.1 _ "refId" (by decide),
   (getStageConfig_purity.2.1 _ "account" (by decide)).trans (by decide),
   getStageConfig_purity.2.2 scenarioBStages _ (by decide)⟩

/-- C6, idempotence. For every raw stage record, getStageConfig applied to its
own result gives that result again. -/
theorem getStageConfig_idempotent (s : GoMap) :
    getStageConfig (getStageConfig s) = getStageConfig s :=
  getStageConfig_idem s

/-- C7, positional naming of triggers. For every list of trigger records (maps
that are not nil), convertTriggers returns a list of the same length whose
entry at index i is the input entry at i with name set to unnamed followed by
the decimal rendering of i, every other key unchanged; and a list that differs
from the input in the names only gives the same result. -/
theorem convertTriggers_positional (triggers : List GoMap) (h : ∀ t ∈ triggers, t ≠ none) :
    ∃ out : List GoMap,
      convertTriggers triggers = .ok out ∧ out.length = triggers.length ∧
      (∀ (i : Nat) (t : GoMap), triggers[i]? = some t →
        ∃ o : GoMap, out[i]? = some o ∧
          o = t.map (Fields.set "name" (.str ("unnamed" ++ Nat.repr i))) ∧
          o.lookup "name" = some (.str ("unnamed" ++ Nat.repr i)) ∧
          ∀ k, k ≠ "name" → o.lookup k = t.lookup k) ∧
      (∀ triggers' : List GoMap,
        List.Forall₂ (fun a b => a.delete "name" = b.delete "name") triggers triggers' →
          convertTriggers triggers' = .ok out) := by
  refine ⟨(triggers.enumFrom 0).map (fun p => namedTrigger p.1 p.2),
    convertTriggers_ok triggers h, by simp, ?_, ?_⟩
  · intro i t ht
    have hne : t ≠ none := h t (List.getElem?_mem ht)
    refine ⟨namedTrigger i t, getElem?_named triggers i t ht, rfl, ?_, ?_⟩
    · show GoMap.lookup (t.map (Fields.set "name" _)) "name" = _
      rw [GoMap.lookup_map_set t "name" "name" _ hne, if_pos rfl]
      rfl
    · intro k hk
      show GoMap.lookup (t.map (Fields.set "name" _)) k = _
      rw [GoMap.lookup_map_set t "name" k _ hne, if_neg hk]
  · intro triggers' hrel
    rw [← convertTriggers_ok triggers h]
    exact (convertTriggers_loop_congr 0 triggers triggers' [] hrel).symm

/-- Two triggers, one of them named before: both get their positional name. -/
theorem convertTriggers_positional_witness :
    convertTriggers sampleTriggers =
        .ok [some [("name", .str "unnamed0"), ("type", .str "cron")],
             some [("name", .str "unnamed1"), ("type", .str "git")]] ∧
      ∃ out : List GoMap,
        convertTriggers sampleTriggers = .ok out ∧ out.length = sampleTriggers.length ∧
        (∀ (i : Nat) (t : GoMap), sampleTriggers[i]? = some t →
          ∃ o : GoMap, out[i]? = some o ∧
            o = t.map (Fields.set "name" (.str ("unnamed" ++ Nat.repr i))) ∧
            o.lookup "name" = some (.str ("unnamed" ++ Nat.repr i)) ∧
            ∀ k, k ≠ "name" → o.lookup k = t.lookup k) ∧
        (∀ triggers' : List GoMap,
          List.Forall₂ (fun a b => a.delete "name" = b.delete "name") sampleTriggers triggers' →
            convertTriggers triggers' = .ok out) :=
  ⟨by decide, convertTriggers_positional sampleTriggers (by decide)⟩

/-- C8, positional naming of notifications. For every list of notification
records (maps that are not nil) and whatever fmt prints for a type that is not
a string, convertNotifications returns a list of the same length, with an entry
at every index of the input that agrees with the input entry on every key but
name; when the type of the entry at index i is a string, the name of the output
entry is that string followed by the decimal rendering of i, and type is kept. -/
theorem convertNotifications_positional (badVerb : Value → String)
    (notifications : List GoMap) (h : ∀ n ∈ notifications, n ≠ none) :
    ∃ out : List GoMap,
      convertNotifications badVerb notifications = .ok out ∧
      out.length = notifications.length ∧
      ∀ (i : Nat) (n : GoMap), notifications[i]? = some n →
        ∃ o : GoMap, out[i]? = some o ∧
          (∀ k, k ≠ "name" → o.lookup k = n.lookup k) ∧
          ∀ ty : String, n.lookup "type" = some (.str ty) →
            o = n.map (Fields.set "name" (.str (ty ++ Nat.repr i))) ∧
            o.lookup "name" = some (.str (ty ++ Nat.repr i)) ∧
            o.lookup "type" = some (.str ty) := by
  refine ⟨(notifications.enumFrom 0).map (fun p => namedNotification badVerb p.1 p.2),
    convertNotifications_ok badVerb notifications h, by simp, ?_⟩
  intro i n hn
  have hne : n ≠ none := h n (List.getElem?_mem hn)
  have hother : ∀ k, k ≠ "name" →
      GoMap.lookup (namedNotification badVerb i n) k = n.lookup k := by
    intro k hk
    show GoMap.lookup (n.map (Fields.set "name" _)) k = _
    rw [GoMap.lookup_map_set n "name" k _ hne, if_neg hk]
  refine ⟨namedNotification badVerb i n, getElem?_named notifications i n hn, hother, ?_⟩
  intro ty hty
  have hidx : n.index "type" = .str ty := by simp [GoMap.index, hty]
  have hnamed : namedNotification badVerb i n
      = n.map (Fields.set "name" (.str (ty ++ Nat.repr i))) := by
    simp only [namedNotification, hidx, fmtS, fmtD]
  refine ⟨hnamed, ?_, ?_⟩
  · rw [hnamed, GoMap.lookup_map_set n "name" "name" _ hne, if_pos rfl]
  · rw [hother "type" (by decide), hty]

/-- Three notifications: a named one, one whose type is a number and one
without a type; none is dropped. -/
theorem convertNotifications_positional_witness :
    convertNotifications scenarioVerb sampleNotifications =
        .ok [some [("name", .str "slack0"), ("type", .str "slack")],
             some [("name", .str "%!s(?)1"), ("type", .num 7)],
             some [("name", .str "%!s(<nil>)2"), ("address", .str "dev@example.org")]] ∧
      ∃ out : List GoMap,
        convertNotifications scenarioVerb sampleNotifications = .ok out ∧
        out.length = sampleNotifications.length ∧
        ∀ (i : Nat) (n : GoMap), sampleNotifications[i]? = some n →
          ∃ o : GoMap, out[i]? = some o ∧
            (∀ k, k ≠ "name" → o.lookup k = n.lookup k) ∧
            ∀ ty : String, n.lookup "type" = some (.str ty) →
              o = n.map (Fields.set "name" (.str (ty ++ Nat.repr i))) ∧
              o.lookup "name" = some (.str (ty ++ Nat.repr i)) ∧
              o.lookup "type" = some (.str ty) :=
  ⟨by decide, convertNotifications_positional scenarioVerb sampleNotifications (by decide)⟩

/-- C9, description. When a pipeline configuration converts, the description of
the template is the description of the source when that is not the empty
string, and the fixed fallback text when it is. -/
theorem description_fallback (badVerb : Value → String) (pipelineConfig : PipelineConfig)
    (t : PipelineTemplate) (h : convertPipelineToTemplate badVerb pipelineConfig = .ok t) :
    (pipelineConfig.Description ≠ "" →
      t.Metadata.Description = pipelineConfig.Description) ∧
    (pipelineConfig.Description = "" →
      t.Metadata.Description = "This template does not have a description") := by
  obtain ⟨_, _, _, _, _, _, rfl⟩ := convertPipelineToTemplate_ok badVerb pipelineConfig t h
  constructor
  · intro hd
    show (if pipelineConfig.Description = "" then _ else _) = _
    rw [if_neg hd]
  · intro hd
    show (if pipelineConfig.Description = "" then _ else _) = _
    rw [if_pos hd]

/-- Scenario D and a description of blanks only. -/
theorem description_fallback_witness :
    convertPipelineToTemplate scenarioVerb (pipelineOf "myapp" "Deploy App!" "" scenarioAStages)
        = .ok (scenarioATemplate "This template does not have a description") ∧
      (scenarioATemplate "This template does not have a description").Metadata.Description
        = "This template does not have a description" ∧
      convertPipelineToTemplate scenarioVerb
          (pipelineOf "myapp" "Deploy App!" "  " scenarioAStages)
        = .ok (scenarioATemplate "  ") ∧
      (scenarioATemplate "  ").Metadata.Description = "  " :=
  ⟨by decide,
   (description_fallback scenarioVerb (pipelineOf "myapp" "Deploy App!" "" scenarioAStages)
      (scenarioATemplate "This template does not have a description") (by decide)).2 rfl,
   by decide,
   (description_fallback scenarioVerb (pipelineOf "myapp" "Deploy App!" "  " scenarioAStages)
      (scenarioATemplate "  ") (by decide)).1 (by decide)⟩

/-- C10, fixed and copied fields. When a pipeline configuration converts, the
template has Schema 1, Protect false, no Variables, the ID that createID gives,
the name of the pipeline, the last modifying author as Owner and the application
as its one scope; and a configuration with other stages, triggers and
notifications that converts gives the same seven fields. -/
theorem template_fixed_fields (badVerb : Value → String) (pipelineConfig : PipelineConfig)
    (t : PipelineTemplate) (h : convertPipelineToTemplate badVerb pipelineConfig = .ok t) :
    t.Schema = "1" ∧ t.Protect = false ∧ t.Variables = [] ∧
    t.ID = createID pipelineConfig ∧ t.Metadata.Name = pipelineConfig.Name ∧
    t.Metadata.Owner = pipelineConfig.LastModifiedBy ∧
    t.Metadata.Scopes = [pipelineConfig.Application] ∧
    ∀ (badVerb' : Value → String) (stages triggers notifications : List GoMap)
      (t' : PipelineTemplate),
      convertPipelineToTemplate badVerb'
          { pipelineConfig with
            Stages := stages, Triggers := triggers, Notifications := notifications } = .ok t' →
        t'.Schema = t.Schema ∧ t'.Protect = t.Protect ∧ t'.Variables = t.Variables ∧
        t'.ID = t.ID ∧ t'.Metadata.Name = t.Metadata.Name ∧
        t'.Metadata.Owner = t.Metadata.Owner ∧ t'.Metadata.Scopes = t.Metadata.Scopes := by
  obtain ⟨_, _, _, _, _, _, rfl⟩ := convertPipelineToTemplate_ok badVerb pipelineConfig t h
  refine ⟨rfl, rfl, rfl, rfl, rfl, rfl, rfl, ?_⟩
  intro badVerb' stages triggers notifications t' h'
  obtain ⟨_, _, _, _, _, _, rfl⟩ := convertPipelineToTemplate_ok badVerb' _ t' h'
  exact ⟨rfl, rfl, rfl, rfl, rfl, rfl, rfl⟩

/-- Scenario A: the fixed fields of its template. -/
theorem template_fixed_fields_witness :
    convertPipelineToTemplate scenarioVerb (pipelineOf "myapp" "Deploy App!" "" scenarioAStages)
        = .ok (scenarioATemplate "This template does not have a description") ∧
      (scenarioATemplate "This template does not have a description").ID = "myapp-DeployApp" ∧
      (scenarioATemplate "This template does not have a description").Metadata.Scopes
        = ["myapp"] :=
  ⟨by decide,
   (template_fixed_fields scenarioVerb (pipelineOf "myapp" "Deploy App!" "" scenarioAStages)
      (scenarioATemplate "This template does not have a description")
      (by decide)).2.2.2.1.trans (by decide),
   (template_fixed_fields scenarioVerb (pipelineOf "myapp" "Deploy App!" "" scenarioAStages)
      (scenarioATemplate "This template does not have a description")
      (by decide)).2.2.2.2.2.2.1⟩

/-- C11, configuration block. When a pipeline configuration converts, the
ConcurrentExecutions of the template holds exactly the keys parallel and
limitConcurrent, bound to the Parallel and LimitConcurrent flags of the source;
Parameters and ExpectedArtifacts are those of the source; Triggers and
Notifications are what convertTriggers and convertNotifications return for
the triggers and notifications of the source. -/
theorem configuration_block (badVerb : Value → String) (pipelineConfig : PipelineConfig)
    (t : PipelineTemplate) (h : convertPipelineToTemplate badVerb pipelineConfig = .ok t) :
    t.Configuration.ConcurrentExecutions =
        [("parallel", pipelineConfig.Parallel),
         ("limitConcurrent", pipelineConfig.LimitConcurrent)] ∧
      t.Configuration.ConcurrentExecutions.map Prod.fst = ["parallel", "limitConcurrent"] ∧
      t.Configuration.ConcurrentExecutions.lookup "parallel" = some pipelineConfig.Parallel ∧
      t.Configuration.ConcurrentExecutions.lookup "limitConcurrent"
        = some pipelineConfig.LimitConcurrent ∧
      t.Configuration.Parameters = pipelineConfig.Parameters ∧
      t.Configuration.ExpectedArtifacts = pipelineConfig.ExpectedArtifacts ∧
      convertTriggers pipelineConfig.Triggers = .ok t.Configuration.Triggers ∧
      convertNotifications badVerb pipelineConfig.Notifications
        = .ok t.Configuration.Notifications := by
  obtain ⟨_, _, _, h1, h2, _, rfl⟩ := convertPipelineToTemplate_ok badVerb pipelineConfig t h
  exact ⟨rfl, rfl, rfl, rfl, rfl, rfl, h1, h2⟩

/-- Scenario A: its concurrency mapping and its named trigger. -/
theorem configuration_block_witness :
    convertPipelineToTemplate scenarioVerb (pipelineOf "myapp" "Deploy App!" "" scenarioAStages)
        = .ok (scenarioATemplate "This template does not have a description") ∧
      (scenarioATemplate "").Configuration.ConcurrentExecutions
        = [("parallel", true), ("limitConcurrent", false)] ∧
      convertTriggers (pipelineOf "myapp" "Deploy App!" "" scenarioAStages).Triggers
        = .ok [some [("name", .str "unnamed0"), ("type", .str "jenkins")]] :=
  ⟨by decide,
   (configuration_block scenarioVerb (pipelineOf "myapp" "Deploy App!" "" scenarioAStages)
      (scenarioATemplate "This template does not have a description") (by decide)).1,
   (configuration_block scenarioVerb (pipelineOf "myapp" "Deploy App!" "" scenarioAStages)
      (scenarioATemplate "This template does not have a description")
      (by decide)).2.2.2.2.2.2.1⟩

/-- C12, resolved dependencies. For a well-formed stage list, with refIds that
may repeat, conversion succeeds and every ID in the dependsOn of an output
stage is the type followed by the refId of an input stage whose refId is one
of the references of the input stage; references that no stage has as refId
can be dropped without changing the dependsOn and cause no failure, and when
every reference is of that kind the dependsOn is empty. -/
theorem dependsOn_resolved (stages : List GoMap)
    (hwf : ∀ s ∈ stages, wellFormedStage s = true) :
    ∃ out : List PipelineTemplateStage, convertStages stages = .ok out ∧
      ∀ (i : Nat) (s : GoMap), stages[i]? = some s →
        ∃ o : PipelineTemplateStage, out[i]? = some o ∧
          (∀ d ∈ o.DependsOn, ∃ t ∈ stages, ∃ r ∈ requisites s,
            t.index "refId" = .str r ∧ d = stageType t ++ stageRefId t) ∧
          buildDependsOn stages ((requisites s).filter (isResolved stages))
            = .ok o.DependsOn ∧
          ((∀ r ∈ requisites s, ∀ t ∈ stages, t.index "refId" ≠ .str r) →
            o.DependsOn = []) := by
  have hreq : ∀ t ∈ stages, hasRequiredFields t = true :=
    fun t ht => wellFormedStage_required t (hwf t ht)
  refine ⟨stages.map (stageOf stages), convertStages_ok stages hwf, ?_⟩
  intro i s hs
  refine ⟨stageOf stages s, getElem?_map_stageOf stages stages i s hs, ?_, ?_, ?_⟩
  · intro d hd
    obtain ⟨r, hr, t, ht, he, hdt⟩ := (mem_resolvedDependsOn stages (requisites s) d).mp hd
    exact ⟨t, ht, r, hr, he, hdt⟩
  · rw [buildDependsOn_ok stages _ hreq, resolvedDependsOn_filter]
    rfl
  · intro hdangling
    apply List.eq_nil_iff_forall_not_mem.mpr
    intro d hd
    obtain ⟨r, hr, t, ht, he, _⟩ := (mem_resolvedDependsOn stages (requisites s) d).mp hd
    exact hdangling r hr t ht he

/-- A stage whose two references name no stage gets an empty dependsOn. -/
theorem dependsOn_resolved_witness :
    (convertStages danglingStages).map (fun l => l.map PipelineTemplateStage.DependsOn)
        = .ok [[], []] ∧
      ∃ out : List PipelineTemplateStage, convertStages danglingStages = .ok out ∧
        ∀ (i : Nat) (s : GoMap), danglingStages[i]? = some s →
          ∃ o : PipelineTemplateStage, out[i]? = some o ∧
            (∀ d ∈ o.DependsOn, ∃ t ∈ danglingStages, ∃ r ∈ requisites s,
              t.index "refId" = .str r ∧ d = stageType t ++ stageRefId t) ∧
            buildDependsOn danglingStages ((requisites s).filter (isResolved danglingStages))
              = .ok o.DependsOn ∧
            ((∀ r ∈ requisites s, ∀ t ∈ danglingStages, t.index "refId" ≠ .str r) →
              o.DependsOn = []) :=
  ⟨by decide, dependsOn_resolved danglingStages (by decide)⟩

/-- C13, as stated, fails: the stages of scenario A are well-formed, and with a
nil map (a JSON null) among the triggers the conversion ends in the panic of
an assignment to an entry of the nil map. -/
theorem conversion_total_counterexample :
    (∀ s ∈ nilTriggerPipeline.Stages, wellFormedStage s = true) ∧
      convertPipelineToTemplate scenarioVerb nilTriggerPipeline = .error .nilMapAssign := by
  decide

/-- C13, amended. When every stage of a pipeline configuration is well-formed,
convertStages returns its stages and buildDependsOn returns for the references
of every stage, so no type assertion fails: the only failure the conversion
can end in is the assignment to a nil map; and when no trigger and no
notification is the nil map, convertPipelineToTemplate returns a template. -/
theorem conversion_total (badVerb : Value → String) (pipelineConfig : PipelineConfig)
    (hwf : ∀ s ∈ pipelineConfig.Stages, wellFormedStage s = true) :
    (∃ out, convertStages pipelineConfig.Stages = .ok out) ∧
      (∀ s ∈ pipelineConfig.Stages,
        ∃ deps, buildDependsOn pipelineConfig.Stages (requisites s) = .ok deps) ∧
      (∀ e, convertPipelineToTemplate badVerb pipelineConfig = .error e → e = .nilMapAssign) ∧
      ((∀ t ∈ pipelineConfig.Triggers, t ≠ none) →
        (∀ n ∈ pipelineConfig.Notifications, n ≠ none) →
          ∃ t, convertPipelineToTemplate badVerb pipelineConfig = .ok t) := by
  have hreq : ∀ t ∈ pipelineConfig.Stages, hasRequiredFields t = true :=
    fun t ht => wellFormedStage_required t (hwf t ht)
  have hst := convertStages_ok pipelineConfig.Stages hwf
  refine ⟨⟨_, hst⟩, ?_, ?_, ?_⟩
  · exact fun s _ => ⟨_, buildDependsOn_ok pipelineConfig.Stages (requisites s) hreq⟩
  · exact fun e he => convertPipelineToTemplate_error_kind badVerb pipelineConfig _ hst e he
  · intro ht hn
    exact convertPipelineToTemplate_isOk badVerb pipelineConfig _ _ _
      (convertTriggers_ok _ ht) (convertNotifications_ok badVerb _ hn) hst

/-- Scenario A converts, with its trigger and its notification. -/
theorem conversion_total_witness :
    convertPipelineToTemplate scenarioVerb (pipelineOf "myapp" "Deploy App!" "" scenarioAStages)
        = .ok (scenarioATemplate "This template does not have a description") ∧
      ∃ t, convertPipelineToTemplate scenarioVerb
        (pipelineOf "myapp" "Deploy App!" "" scenarioAStages) = .ok t :=
  ⟨by decide,
   (conversion_total scenarioVerb (pipelineOf "myapp" "Deploy App!" "" scenarioAStages)
      (by decide)).2.2.2 (by decide) (by decide)⟩

/-- C14, as stated, fails: the stages are well-formed, and the stage that
names the reference 1 twice gets the ID bake1 twice in its dependsOn. -/
theorem dependsOn_nodup_counterexample :
    (∀ s ∈ repeatedReferenceStages, wellFormedStage s = true) ∧
      (convertStages repeatedReferenceStages).map
          (fun l => l.map PipelineTemplateStage.DependsOn) = .ok [[], ["bake1", "bake1"]] ∧
      ¬ (["bake1", "bake1"] : List String).Nodup := by
  decide

/-- C14, amended. For a well-formed stage list in which the IDs (type followed
by refId) of the stages are pairwise distinct, the dependsOn of every stage
whose references are pairwise distinct holds no ID more than once. -/
theorem dependsOn_nodup (stages : List GoMap)
    (hwf : ∀ s ∈ stages, wellFormedStage s = true)
    (hids : (stages.map (fun t => stageType t ++ stageRefId t)).Nodup) :
    ∃ out : List PipelineTemplateStage, convertStages stages = .ok out ∧
      ∀ (i : Nat) (s : GoMap), stages[i]? = some s → (requisites s).Nodup →
        ∃ o : PipelineTemplateStage, out[i]? = some o ∧ o.DependsOn.Nodup := by
  refine ⟨stages.map (stageOf stages), convertStages_ok stages hwf, ?_⟩
  intro i s hs hrefs
  exact ⟨stageOf stages s, getElem?_map_stageOf stages stages i s hs,
    resolvedDependsOn_nodup stages (requisites s) hrefs hids⟩

/-- Scenario B: each dependsOn is free of repetitions. -/
theorem dependsOn_nodup_witness :
    (convertStages scenarioBStages).map (fun l => l.map PipelineTemplateStage.DependsOn)
        = .ok [[], ["bake1"]] ∧
      ∃ out : List PipelineTemplateStage, convertStages scenarioBStages = .ok out ∧
        ∀ (i : Nat) (s : GoMap), scenarioBStages[i]? = some s → (requisites s).Nodup →
          ∃ o : PipelineTemplateStage, out[i]? = some o ∧ o.DependsOn.Nodup :=
  ⟨by decide, dependsOn_nodup scenarioBStages (by decide) (by decide)⟩

/-- C15, collision of stage IDs. The two stages of collisionStages are
well-formed, have distinct refIds and different pairs of type and refId, and
convertStages gives both the ID foo123. -/
theorem stageID_collision :
    (∀ s ∈ collisionStages, wellFormedStage s = true) ∧ distinctRefIds collisionStages ∧
      collisionStages.map (fun s => (stageType s, stageRefId s))
        = [("foo1", "23"), ("foo", "123")] ∧
      (convertStages collisionStages).map (fun l => l.map PipelineTemplateStage.ID)
        = .ok ["foo123", "foo123"] := by
  decide

/-- C16, selection of the Authorization header. For an access token of at least
two bytes, client.Do passes on the request with one value added under
Authorization and every other header as it was: Bearer and the token when the
first two bytes of the token are e and y, Basic and the token otherwise. For the
empty access token the request is passed on as it is. -/
theorem authorization_header (httpClientDo : Request → Option Response × Option Error)
    (accessToken : String) (req : Request) (h : 2 ≤ (goBytes accessToken).length) :
    (∃ value : String,
      value = (if (goBytes accessToken)[0]? = some 'e'.toNat ∧
                  (goBytes accessToken)[1]? = some 'y'.toNat
               then "Bearer " ++ accessToken else "Basic " ++ accessToken) ∧
      client.Do httpClientDo accessToken req =
        .ok (httpClientDo { req with Header := req.Header.Add "Authorization" value }) ∧
      (req.Header.Add "Authorization" value).Values "Authorization" =
        req.Header.Values "Authorization" ++ [value] ∧
      ∀ k, k ≠ "Authorization" →
        (req.Header.Add "Authorization" value).Values k = req.Header.Values k) ∧
    client.Do httpClientDo "" req = .ok (httpClientDo req) := by
  refine ⟨?_, rfl⟩
  match hb : goBytes accessToken, h with
  | b0 :: b1 :: rest, _ =>
    refine ⟨(if b0 = 'e'.toNat ∧ b1 = 'y'.toNat then "Bearer " ++ accessToken
        else "Basic " ++ accessToken), ?_,
      client_Do_of_bytes httpClientDo accessToken req b0 b1 rest hb,
      Header.Values_Add_same _ _ _, fun k hk => Header.Values_Add_other _ _ _ k hk⟩
    simp

/-- A token that starts with ey gets Bearer, another one Basic, next to a
header the request holds already. -/
theorem authorization_header_witness :
    client.Do sampleTransport "eyJhbGciOi"
        { Method := "GET", URL := "http://gate", Header := [("Accept", ["*/*"])] }
      = .ok (sampleTransport
          { Method := "GET", URL := "http://gate",
            Header := [("Accept", ["*/*"]), ("Authorization", ["Bearer eyJhbGciOi"])] }) ∧
    client.Do sampleTransport "dXNlcjpwdw=="
        { Method := "GET", URL := "http://gate", Header := [("Accept", ["*/*"])] }
      = .ok (sampleTransport
          { Method := "GET", URL := "http://gate",
            Header := [("Accept", ["*/*"]), ("Authorization", ["Basic dXNlcjpwdw=="])] }) ∧
    client.Do sampleTransport ""
        { Method := "GET", URL := "http://gate", Header := [("Accept", ["*/*"])] }
      = .ok (sampleTransport
          { Method := "GET", URL := "http://gate", Header := [("Accept", ["*/*"])] }) :=
  ⟨by decide, by decide,
   (authorization_header sampleTransport "eyJhbGciOi"
      { Method := "GET", URL := "http://gate", Header := [("Accept", ["*/*"])] }
      (by decide)).2⟩

/-- C17 at the token e: the token is one byte long, the guard against the empty
token passes, the first byte is e, and the index 1 is past the end: client.Do
panics and hands no request to the underlying client. -/
theorem client_Do_panics_on_e (httpClientDo : Request → Option Response × Option Error)
    (req : Request) :
    goBytes "e" = ['e'.toNat] ∧
      client.Do httpClientDo "e" req = .error (.indexOutOfRange 1 1) :=
  ⟨rfl, rfl⟩

/-- C18 with a certificate and a key configured and the insecure flag not set:
the factory returns a client whose TLS configuration skips the verification of
the server certificate. -/
theorem factory_skips_verification :
    certContext.insecure = false ∧
      DefaultHTTPClientFactory sampleWorld (some certContext) =
        .ok ("", .ok { Timeout := 30, Jar := [],
                       TLSClientConfig := { MinVersion := VersionTLS12
                                            PreferServerCipherSuites := true
                                            Certificates := ["client.crt+client.key"]
                                            InsecureSkipVerify := true } }) := by
  decide

/-- C19 on a transport that fails: client.get returns the wrapped error and
the nil response, and client.getJSON selects the body of that nil response
and panics; the error does not reach the caller. -/
theorem getJSON_panics_on_transport_failure :
    client.get sampleNewRequest failingTransport "" "http://gate/pipelines" =
        .ok (none, some (.wrap (.base "dial tcp: connection refused")
          "getting from http://gate/pipelines")) ∧
      client.getJSON sampleNewRequest failingTransport "" "http://gate/pipelines" =
        .error .nilDereference := by
  decide

/-- C20, in-place naming. With the maps of the source document in a store:
convertTriggers, run on pairwise distinct references to allocated maps, returns
the very references it was given, and the map behind the reference at index i
is then the one it was before with name set to unnamed followed by i, every
other map of the store as it was; the same holds for convertNotifications, with
the name built from the type of the map; getStageConfig writes into a map it
allocates, leaves every map of the store as it was, and the new map holds what
getStageConfig by value gives for the stage; and a conversion of a whole
pipeline configuration returns the references of its triggers and
notifications and changes no map of the store but those, so no raw stage that
is not also a trigger or a notification loses, gains or changes a key. -/
theorem in_place_naming :
    (∀ (σ : Store) (triggers : List Ref),
      (∀ t ∈ triggers, Store.holds σ t = true) → triggers.Nodup →
        ∃ σ' : Store, convertTriggersSt σ triggers = .ok (σ', triggers) ∧
          σ'.length = σ.length ∧
          (∀ (i : Nat) (t : Ref), triggers[i]? = some t →
            Store.deref σ' t =
              (Store.deref σ t).map (Fields.set "name" (.str ("unnamed" ++ Nat.repr i)))) ∧
          (∀ a, some a ∉ triggers → σ'[a]? = σ[a]?)) ∧
    (∀ (badVerb : Value → String) (σ : Store) (notifications : List Ref),
      (∀ n ∈ notifications, Store.holds σ n = true) → notifications.Nodup →
        ∃ σ' : Store,
          convertNotificationsSt badVerb σ notifications = .ok (σ', notifications) ∧
          σ'.length = σ.length ∧
          (∀ (i : Nat) (n : Ref), notifications[i]? = some n →
            Store.deref σ' n =
              (Store.deref σ n).map (Fields.set "name"
                (.str (fmtS badVerb ((Store.deref σ n).index "type") ++ Nat.repr i)))) ∧
          (∀ a, some a ∉ notifications → σ'[a]? = σ[a]?)) ∧
    (∀ (σ : Store) (s : Ref),
      (getStageConfigSt σ s).2 = some σ.length ∧
        (∀ b, b < σ.length → (getStageConfigSt σ s).1[b]? = σ[b]?) ∧
        (Store.holds σ s = true →
          Store.deref (getStageConfigSt σ s).1 (getStageConfigSt σ s).2 =
            getStageConfig (Store.deref σ s))) ∧
    (∀ (badVerb : Value → String) (σ σ' : Store) (pipelineConfig : PipelineConfigSt)
      (t : PipelineTemplateSt),
      convertPipelineToTemplateSt badVerb σ pipelineConfig = .ok (σ', t) →
        t.Configuration.Triggers = pipelineConfig.Triggers ∧
        t.Configuration.Notifications = pipelineConfig.Notifications ∧
        ∀ a, a < σ.length → some a ∉ pipelineConfig.Triggers →
          some a ∉ pipelineConfig.Notifications → σ'[a]? = σ[a]?) := by
  refine ⟨?_, ?_, ?_, ?_⟩
  · intro σ triggers hv hnd
    obtain ⟨σ', h⟩ := assignNames_ok (fun i _ => .str ("unnamed" ++ fmtD i)) 0 triggers [] σ hv
    rw [List.nil_append] at h
    obtain ⟨_, hlen, hframe⟩ := assignNames_frame _ _ _ _ _ _ _ h
    refine ⟨σ', by rw [convertTriggersSt, convertTriggersSt_loop_eq]; exact h, hlen, ?_, hframe⟩
    intro i t hi
    have := assignNames_content _ 0 triggers [] _ σ σ' hnd h i t hi
    rw [this, Nat.zero_add]
    rfl
  · intro badVerb σ notifications hv hnd
    obtain ⟨σ', h⟩ := assignNames_ok
      (fun i m => .str (fmtS badVerb (m.index "type") ++ fmtD i)) 0 notifications [] σ hv
    rw [List.nil_append] at h
    obtain ⟨_, hlen, hframe⟩ := assignNames_frame _ _ _ _ _ _ _ h
    refine ⟨σ', by rw [convertNotificationsSt, convertNotificationsSt_loop_eq]; exact h,
      hlen, ?_, hframe⟩
    intro i n hi
    have := assignNames_content _ 0 notifications [] _ σ σ' hnd h i n hi
    rw [this, Nat.zero_add]
    rfl
  · intro σ s
    obtain ⟨h1, _, h3⟩ := getStageConfigSt_frame σ s
    exact ⟨h1, h3, fun hs => getStageConfigSt_content σ s (Or.inl hs)⟩
  · intro badVerb σ σ' pipelineConfig t h
    obtain ⟨h1, h2, _, h4⟩ := convertPipelineToTemplateSt_frame badVerb σ σ' pipelineConfig t h
    exact ⟨h1, h2, h4⟩

/-- The conversion of sampleDocument: the two triggers and the notification
are named in the store, the two stages at the addresses 3 and 4 are as before. -/
theorem in_place_naming_witness :
    convertPipelineToTemplateSt scenarioVerb sampleStore sampleDocument
        = .ok (sampleStoreAfter, sampleTemplateSt) ∧
      sampleStoreAfter[3]? = sampleStore[3]? ∧ sampleStoreAfter[4]? = sampleStore[4]? ∧
      (∃ σ' : Store, convertTriggersSt sampleStore [some 0, some 1] = .ok (σ', [some 0, some 1]) ∧
        σ'.length = sampleStore.length ∧
        (∀ (i : Nat) (t : Ref), [some 0, some 1][i]? = some t →
          Store.deref σ' t =
            (Store.deref sampleStore t).map
              (Fields.set "name" (.str ("unnamed" ++ Nat.repr i)))) ∧
        (∀ a, some a ∉ [some 0, some 1] → σ'[a]? = sampleStore[a]?)) :=
  ⟨by decide,
   (in_place_naming.2.2.2 scenarioVerb sampleStore sampleStoreAfter sampleDocument
      sampleTemplateSt (by decide)).2.2 3 (by decide) (by decide) (by decide),
   (in_place_naming.2.2.2 scenarioVerb sampleStore sampleStoreAfter sampleDocument
      sampleTemplateSt (by decide)).2.2 4 (by decide) (by decide) (by decide),
   in_place_naming.1 sampleStore [some 0, some 1] (by decide) (by decide)⟩

end Roer
